import Mathlib

/-!
Verification of the CRAS audio server core against its implementation.

The development shallowly embeds the client-side per-stream audio loop
(`cras_client.c`), the client connect transition, the stream-id generator,
and the server-side routing engine (`cras_iodev_list.c`): device enable /
disable, the NC-blocked flag, the higher-channel-count reopen path, the
flexible-loopback registry, and the input-node gain conversion.

Functions whose definitions live outside the sources at hand (shared-memory
helpers, wire-struct layouts, floop pair helpers, a few constants) are
modelled from the specification document; each such definition carries a
doc comment starting with `Modelled from the spec:`.
-/

namespace Cras

/-- Stream / device direction (`CRAS_STREAM_DIRECTION`). -/
inductive Direction where
  | OUTPUT
  | INPUT
  | POST_MIX_PRE_DSP
  | POST_DSP
  | POST_DSP_DELAYED
deriving DecidableEq, Repr

/-- Modelled from the spec: `cras_stream_has_input` (cras_types.h is not under
src/). A direction is input-like iff it reads from the world: INPUT and all
loopback taps, i.e. everything except OUTPUT. -/
def cras_stream_has_input (d : Direction) : Bool :=
  d ≠ Direction.OUTPUT

/-- Modelled from the spec: `cras_stream_uses_input_hw` — only INPUT streams
use capture hardware (loopback taps do not). -/
def cras_stream_uses_input_hw (d : Direction) : Bool :=
  d = Direction.INPUT

/-- Modelled from the spec: `cras_stream_uses_output_hw` — only OUTPUT streams
write to playback hardware. -/
def cras_stream_uses_output_hw (d : Direction) : Bool :=
  d = Direction.OUTPUT

/-- The state of the shared audio buffer (SAB) header that the client audio
task reads and writes. Modelled from the spec: the SAB header record of §3
(two-buffer ping-pong, byte offsets per buffer half, `frame_bytes`,
`used_size`); only the fields the audio task touches are kept. -/
structure AudioShm where
  frame_bytes : Nat
  used_size : Nat
  write_buf_idx : Fin 2
  read_buf_idx : Fin 2
  write_offset : Fin 2 → Nat
  read_offset : Fin 2 → Nat

/-- Modelled from the spec: `cras_shm_buffer_written_start` (cras_shm.h is not
under src/). Writing `frames` frames advances the write pointer of the
current write buffer by `frames * frame_bytes` bytes (§4.1, §8:
"advance write_offset by 480 × 4"). -/
def cras_shm_buffer_written_start (shm : AudioShm) (frames : Nat) : AudioShm :=
  { shm with
    write_offset := Function.update shm.write_offset shm.write_buf_idx
      (shm.write_offset shm.write_buf_idx + frames * shm.frame_bytes) }

/-- Modelled from the spec: `cras_shm_get_curr_read_frames` — the number of
readable frames in the current read buffer:
`(write_offset[read_buf_idx] - read_offset[read_buf_idx]) / frame_bytes`. -/
def cras_shm_get_curr_read_frames (shm : AudioShm) : Nat :=
  (shm.write_offset shm.read_buf_idx - shm.read_offset shm.read_buf_idx) /
    shm.frame_bytes

/-- Modelled from the spec: `cras_shm_buffer_read_current` — consuming
`frames` frames advances the read pointer of the current read buffer by
`frames * frame_bytes` bytes. -/
def cras_shm_buffer_read_current (shm : AudioShm) (frames : Nat) : AudioShm :=
  { shm with
    read_offset := Function.update shm.read_offset shm.read_buf_idx
      (shm.read_offset shm.read_buf_idx + frames * shm.frame_bytes) }

/-- The pieces of `cras_stream_params` the audio task consults. -/
structure StreamConfig where
  buffer_frames : Nat
  cb_threshold : Nat
  /-- whether `flags & BULK_AUDIO_OK` is set -/
  bulk_audio_ok : Bool
deriving DecidableEq, Repr

/-- The read-only view of `struct client_stream` used by the audio task. -/
structure ClientStream where
  direction : Direction
  config : StreamConfig
deriving DecidableEq, Repr

/-- Observable actions of the audio task: the user callback invocation, the
`CLIENT_STREAM_EOF` message on the stream pipe, and the audio-fd replies.
The reply fields carry the on-wire values: `frames` as u32, `error` as i8
(audio message record `{id:u8, error:i8, frames:u32}`, spec §3). -/
inductive AEvent where
  | callbackInvoked (num_frames : Nat)
  | streamEof
  | playbackReply (frames : Nat) (error : Int)
  | captureReply (frames : Nat) (error : Int)
deriving DecidableEq, Repr

/-- Cast of a C `int` value into an unsigned 32-bit wire field. -/
def toU32 (z : Int) : Nat :=
  (z % (2 ^ 32 : Int)).toNat

/-- Cast of a C `int` value into the signed 8-bit `error` wire field. -/
def toI8 (z : Int) : Int :=
  (z + 128) % 256 - 128

/-- `send_playback_reply` (cras_client.c): writes
`AUDIO_MESSAGE_DATA_READY{frames, error}` on the audio fd when the stream
uses output hardware; the write itself is modelled as succeeding. -/
def send_playback_reply (stream : ClientStream) (frames : Int) (error : Int) :
    Int × List AEvent :=
  if ¬ cras_stream_uses_output_hw stream.direction then (0, [])
  else (0, [AEvent.playbackReply (toU32 frames) (toI8 error)])

/-- `send_capture_reply` (cras_client.c): writes
`AUDIO_MESSAGE_DATA_CAPTURED{frames, err}` on the audio fd when the stream
uses input hardware. -/
def send_capture_reply (stream : ClientStream) (frames : Int) (err : Int) :
    Int × List AEvent :=
  if ¬ cras_stream_uses_input_hw stream.direction then (0, [])
  else (0, [AEvent.captureReply (toU32 frames) (toI8 err)])

/-- The frame count `config_capture_buf` requests before the overrun check:
clamped to `buffer_frames` for BULK_AUDIO_OK streams, else to
`cb_threshold`. -/
def capture_req_frames (stream : ClientStream) (num_frames : Nat) : Nat :=
  if stream.config.bulk_audio_ok then min num_frames stream.config.buffer_frames
  else min num_frames stream.config.cb_threshold

/-- `config_capture_buf` (cras_client.c): clamp the requested frames, then
return 0 if the shm holds fewer readable frames than requested (server-side
overrun corrupted the buffer). -/
def config_capture_buf (stream : ClientStream) (num_frames : Nat)
    (shm : AudioShm) : Nat :=
  let nf := capture_req_frames stream num_frames
  if cras_shm_get_curr_read_frames shm < nf then 0 else nf

/-- `handle_playback_request` (cras_client.c). The user callback is modelled
as a function from the offered frame count to the returned frame count (or a
negative error). Returns the function result, the new shm state and the
emitted events. -/
def handle_playback_request (stream : ClientStream) (cb : Nat → Int)
    (num_frames : Nat) (shm : AudioShm) : Int × AudioShm × List AEvent :=
  if stream.direction ≠ Direction.OUTPUT then (0, shm, [])
  else
    let nf := min num_frames stream.config.cb_threshold
    let frames := cb nf
    if frames < 0 then
      let (rc, ev) := send_playback_reply stream frames frames
      (rc, shm, [AEvent.callbackInvoked nf, AEvent.streamEof] ++ ev)
    else
      let shm2 := cras_shm_buffer_written_start shm frames.toNat
      let (rc, ev) := send_playback_reply stream frames 0
      (rc, shm2, [AEvent.callbackInvoked nf] ++ ev)

/-- `handle_capture_data_ready` (cras_client.c). -/
def handle_capture_data_ready (stream : ClientStream) (cb : Nat → Int)
    (num_frames : Nat) (shm : AudioShm) : Int × AudioShm × List AEvent :=
  if ¬ cras_stream_has_input stream.direction then (0, shm, [])
  else
    let nf := config_capture_buf stream num_frames shm
    if nf = 0 then (0, shm, [])
    else
      let frames := cb nf
      if frames < 0 then
        let (rc, ev) := send_capture_reply stream frames frames
        (rc, shm, [AEvent.callbackInvoked nf, AEvent.streamEof] ++ ev)
      else if frames = 0 then (0, shm, [AEvent.callbackInvoked nf])
      else
        let shm2 := cras_shm_buffer_read_current shm frames.toNat
        let (rc, ev) := send_capture_reply stream frames 0
        (rc, shm2, [AEvent.callbackInvoked nf] ++ ev)

/-- Audio message ids on the audio fd. `unknownId` stands for any byte value
outside the known enumerators. -/
inductive AudioMsgId where
  | REQUEST_DATA
  | DATA_READY
  | DATA_CAPTURED
  | unknownId (n : Nat)
deriving DecidableEq, Repr

/-- What one blocking `read_with_wake_fd` call in the audio task observed. -/
inductive Incoming where
  /-- `poll` itself failed with a negative return -/
  | pollError (rc : Int)
  /-- only the wake pipe was readable: nothing read from the audio fd -/
  | wakeOnly
  /-- a full 6-byte audio message record was read -/
  | message (id : AudioMsgId) (error : Int) (frames : Nat)
  /-- the audio fd was readable but `read` returned fewer bytes than the
  audio message record size -/
  | shortRead
deriving DecidableEq, Repr

def EIO : Int := 5

def EEXIST : Int := 17

def EAGAIN : Int := 11

def ENOTSUP : Int := 95

/-- Return value of `read_with_wake_fd` (cras_client.c): the poll error is
propagated, a wake-only iteration reads 0 bytes, a full record reads
`sizeof(aud_msg)` bytes, and a short read is turned into `-EIO`. -/
def read_with_wake_fd : Incoming → Int
  | Incoming.pollError rc => rc
  | Incoming.wakeOnly => 0
  | Incoming.message _ _ _ => 6
  | Incoming.shortRead => - EIO

/-- Result of one iteration of the audio task loop: either the thread
returned (with the given return value), or it continues, possibly with the
`thread_terminated` flag set, carrying the new shm state and the events. -/
inductive ThreadStep where
  | exited (rc : Int)
  | continued (terminated : Bool) (shm : AudioShm) (events : List AEvent)

/-- One iteration of `audio_thread` (cras_client.c): read a message with
`read_with_wake_fd`, exit with `-EIO` on a negative read result, loop on a
zero-byte read, then dispatch on the message id; ids other than
`DATA_READY` and `REQUEST_DATA` fall into the `default:` arm which only
breaks out of the switch. -/
def audio_thread_iteration (stream : ClientStream) (cb : Nat → Int)
    (shm : AudioShm) (inc : Incoming) : ThreadStep :=
  let num_read := read_with_wake_fd inc
  if num_read < 0 then ThreadStep.exited (- EIO)
  else if num_read = 0 then ThreadStep.continued false shm []
  else
    match inc with
    | Incoming.message id _ frames =>
      match id with
      | AudioMsgId.DATA_READY =>
        let (rc, shm2, ev) := handle_capture_data_ready stream cb frames shm
        ThreadStep.continued (rc ≠ 0) shm2 ev
      | AudioMsgId.REQUEST_DATA =>
        let (rc, shm2, ev) := handle_playback_request stream cb frames shm
        ThreadStep.continued (rc ≠ 0) shm2 ev
      | _ => ThreadStep.continued false shm []
    | _ => ThreadStep.continued false shm []

/-! ### Stream-id generation (client_thread_add_stream) -/

/-- Modelled from the spec: `cras_get_stream_id` (cras_types.h is not under
src/). §3: the stream identifier is the 32-bit value
`(client_id << 16) | stream_index`, both halves masked to 16 bits; since the
low 16 bits of the shifted client id are zero the bitwise or is addition. -/
def cras_get_stream_id (client_id stream_index : Nat) : Nat :=
  (client_id % 2 ^ 16) * 2 ^ 16 + stream_index % 2 ^ 16

/-- The id-generation loop of `client_thread_add_stream` (cras_client.c):
generate a candidate from `next_stream_id`, increment `next_stream_id`, and
retry while the candidate collides with a live stream's id. The loop is
given as fuelled recursion; the returned pair is the fresh id and the new
`next_stream_id`. -/
def find_avail_stream_id (client_id : Nat) (live : List Nat) :
    Nat → Nat → Option (Nat × Nat)
  | _, 0 => none
  | next, fuel + 1 =>
    let new_id := cras_get_stream_id client_id next
    if new_id ∈ live then find_avail_stream_id client_id live (next + 1) fuel
    else some (new_id, next + 1)

/-! ### The connect transition of the client control task -/

/-- The client-observer callback slots, in the order `reregister_notifications`
walks them. -/
inductive NotifyKind where
  | output_volume_changed
  | output_mute_changed
  | capture_gain_changed
  | capture_mute_changed
  | nodes_changed
  | active_node_changed
  | output_node_volume_changed
  | node_left_right_swapped_changed
  | input_node_gain_changed
  | num_active_streams_changed
deriving DecidableEq, Repr

/-- The order in which `reregister_notifications` re-registers the observer
callbacks (cras_client.c). -/
def notifyOrder : List NotifyKind :=
  [NotifyKind.output_volume_changed, NotifyKind.output_mute_changed,
   NotifyKind.capture_gain_changed, NotifyKind.capture_mute_changed,
   NotifyKind.nodes_changed, NotifyKind.active_node_changed,
   NotifyKind.output_node_volume_changed,
   NotifyKind.node_left_right_swapped_changed,
   NotifyKind.input_node_gain_changed,
   NotifyKind.num_active_streams_changed]

/-- `client->observer_ops`: which callback pointers are non-NULL. -/
structure ObserverOps where
  registered : NotifyKind → Bool

/-- Socket state of the client control task (`cras_socket_state_t`). -/
inductive SocketState where
  | DISCONNECTED
  | WAIT_FOR_SOCKET
  | WAIT_FOR_WRITABLE
  | FIRST_MESSAGE
  | CONNECTED
  | ERROR_DELAY
deriving DecidableEq, Repr

/-- Connection status reported to the application. -/
inductive ConnStatus where
  | CONNECTED
  | DISCONNECTED
  | FAILED
deriving DecidableEq, Repr

/-- Observable actions of the control task during the connect transition. -/
inductive CEvent where
  /-- a `REGISTER_NOTIFICATION` message for this kind was written to the
  server socket -/
  | registerSent (kind : NotifyKind)
  /-- `server_event_fd` was set to this value (eventfd read + write) -/
  | serverEventFdSet (value : Nat)
  /-- the application connection callback was fired with this status -/
  | connectionCb (status : ConnStatus)
deriving DecidableEq, Repr

/-- The slice of `struct cras_client` the connect transition touches. -/
structure ClientCtl where
  server_fd_state : SocketState
  server_event_fd : Nat
  has_connection_cb : Bool
  observer_ops : ObserverOps

/-- `cras_send_register_notification` (cras_client.c): send the registration
message; a send failure of `-EPIPE` (no connection) is deliberately ignored.
`send` is the environment giving `write_message_to_server`'s result for each
kind. -/
def cras_send_register_notification (send : NotifyKind → Int)
    (kind : NotifyKind) : Int :=
  let rc := send kind
  if rc = -32 then 0 else rc

/-- The body of `reregister_notifications` (cras_client.c), walking the
callback slots in source order: each registered callback is re-registered;
the first nonzero registration result aborts the walk. -/
def reregister_go (ops : ObserverOps) (send : NotifyKind → Int) :
    List NotifyKind → Int × List CEvent
  | [] => (0, [])
  | kind :: rest =>
    if ops.registered kind then
      let rc := cras_send_register_notification send kind
      if rc ≠ 0 then (rc, [CEvent.registerSent kind])
      else
        let (r, ev) := reregister_go ops send rest
        (r, CEvent.registerSent kind :: ev)
    else reregister_go ops send rest

/-- `reregister_notifications` (cras_client.c). -/
def reregister_notifications (ops : ObserverOps) (send : NotifyKind → Int) :
    Int × List CEvent :=
  reregister_go ops send notifyOrder

/-- `connect_transition_action` (cras_client.c): re-register all notifications
first; on a negative result return it without touching the socket state.
Otherwise move to CONNECTED, reset-and-set `server_event_fd` to 1 so
synchronous connect waiters unblock, and fire the connection callback. -/
def connect_transition_action (c : ClientCtl) (send : NotifyKind → Int) :
    Int × ClientCtl × List CEvent :=
  let (rc, ev) := reregister_notifications c.observer_ops send
  if rc < 0 then (rc, c, ev)
  else
    let c2 := { c with server_fd_state := SocketState.CONNECTED,
                       server_event_fd := 1 }
    (0, c2,
      ev ++ [CEvent.serverEventFdSet 1] ++
        (if c.has_connection_cb then [CEvent.connectionCb ConnStatus.CONNECTED]
         else []))

/-! ### The server-side device list and routing engine (cras_iodev_list.c) -/

def EINVAL : Int := 22

/-- Modelled from the spec: the reserved special device indices
(cras_iodev_info.h is not under src/). Index 0 means "no device"; indices
below `MAX_SPECIAL_DEVICE_IDX` are the fallback/silent devices. The exact
numbers are immaterial to the claims. -/
def NO_DEVICE : Nat := 0

def SILENT_RECORD_DEVICE : Nat := 1

def SILENT_PLAYBACK_DEVICE : Nat := 2

def SILENT_HOTWORD_DEVICE : Nat := 3

def MAX_SPECIAL_DEVICE_IDX : Nat := 4

def NUM_OPEN_DEVS_MAX : Nat := 10

/-- The system-state flags (`cras_system_state`, an external collaborator)
that the iodev list consults; fixed for the duration of an operation. -/
structure SysConfig where
  nc_standalone_mode : Bool
  dsp_nc_supported : Bool
  bypass_block_nc : Bool
deriving DecidableEq, Repr

/-- The two static flags combined into the NC-blocked state
(cras_iodev_list.c). -/
structure NcState where
  non_dsp_aec_echo_ref_dev_alive : Bool
  aec_on_dsp_is_disallowed : Bool
deriving DecidableEq, Repr

/-- `get_nc_blocked_state` (cras_iodev_list.c): in NC standalone mode only
`non_dsp_aec_echo_ref_dev_alive` counts (workaround kept from the source);
otherwise the flag is the disjunction of the two conditions. -/
def get_nc_blocked_state (sys : SysConfig) (st : NcState) : Bool :=
  if sys.nc_standalone_mode then st.non_dsp_aec_echo_ref_dev_alive
  else st.non_dsp_aec_echo_ref_dev_alive || st.aec_on_dsp_is_disallowed

/-- Node types of `active_node` that the routing decisions inspect. -/
inductive NodeType where
  | HOTWORD
  | INTERNAL_SPEAKER
  | FALLBACK_NORMAL
  | FALLBACK_ABNORMAL
  | OTHER
deriving DecidableEq, Repr

/-- Observable actions of the routing engine. -/
inductive REvent where
  | devEnabled (idx : Nat)
  | devDisabled (idx : Nat)
  | devOpened (idx : Nat) (num_channels : Nat)
  | devClosed (idx : Nat)
  | streamsRemoved (idx : Nat)
  | streamAttached (stream_id : Nat) (dev_idxs : List Nat)
  | updateActiveNode (idx : Nat) (dev_enabled : Nat)
  | deviceListUpdated
  | nodesChanged
  | initRetryScheduled (idx : Nat)
deriving DecidableEq, Repr

/-- `update_nc_blocked_state` (cras_iodev_list.c): install the new flag pair;
if the combined NC-blocked state changed, and DSP noise cancellation is
supported and not bypassed, refresh the exported device list and notify
`NODES_CHANGED` once. -/
def update_nc_blocked_state (sys : SysConfig) (st : NcState)
    (new_alive new_disallowed : Bool) : NcState × List REvent :=
  let prev := get_nc_blocked_state sys st
  let st2 : NcState := ⟨new_alive, new_disallowed⟩
  if prev ≠ get_nc_blocked_state sys st2 then
    if ¬ sys.dsp_nc_supported || sys.bypass_block_nc then (st2, [])
    else (st2, [REvent.deviceListUpdated, REvent.nodesChanged])
  else (st2, [])

/-- `set_non_dsp_aec_echo_ref_dev_alive` (cras_iodev_list.c). -/
def set_non_dsp_aec_echo_ref_dev_alive (sys : SysConfig) (st : NcState)
    (state : Bool) : NcState × List REvent :=
  update_nc_blocked_state sys st state st.aec_on_dsp_is_disallowed

/-- `set_aec_on_dsp_is_disallowed` (cras_iodev_list.c). -/
def set_aec_on_dsp_is_disallowed (sys : SysConfig) (st : NcState)
    (state : Bool) : NcState × List REvent :=
  update_nc_blocked_state sys st st.non_dsp_aec_echo_ref_dev_alive state

/-- The slice of `struct cras_iodev` the routing engine reads and writes.
`dsp_aec_use_case` caches `cras_iodev_is_dsp_aec_use_case(active_node)` (an
external checker on the active node); `attached` is the list of stream ids
attached to the device in the audio thread; `format_num_channels` is the
channel count of `dev->format` (the only format field the claims need). -/
structure IoDev where
  idx : Nat
  direction : Direction
  is_open : Bool
  format_num_channels : Option Nat
  max_supported_channels : Nat
  is_enabled : Bool
  active_node_type : NodeType
  dsp_aec_use_case : Bool
  attached : List Nat
deriving DecidableEq, Repr

/-- The slice of `struct cras_rstream` the routing engine consults. -/
structure RStream where
  id : Nat
  direction : Direction
  num_channels : Nat
  is_pinned : Bool
  pinned_dev_idx : Nat
  hotword_stream : Bool
  client_type : Nat
deriving DecidableEq, Repr

/-- The module state of cras_iodev_list.c: the device registry, the enabled
lists per direction, the stream list (kept descending by channel count by
the stream list), the flexible-loopback pairs (index of the output-side
device and the pair's `client_types_mask`, in creation order), the
NC-blocked flags, and the suspend flags. -/
structure RoutingState where
  devs : List IoDev
  enabled_output : List Nat
  enabled_input : List Nat
  streams : List RStream
  floop_outputs : List (Nat × Nat)
  nc : NcState
  stream_list_suspended : Bool
  hotword_suspended : Bool
deriving DecidableEq, Repr

/-- The per-direction fallback (empty) device index: `fallback_devs[dir]`. -/
def fallback_idx : Direction → Nat
  | Direction.OUTPUT => SILENT_PLAYBACK_DEVICE
  | _ => SILENT_RECORD_DEVICE

def RoutingState.enabledList (s : RoutingState) : Direction → List Nat
  | Direction.OUTPUT => s.enabled_output
  | _ => s.enabled_input

def RoutingState.setEnabledList (s : RoutingState) (d : Direction)
    (l : List Nat) : RoutingState :=
  match d with
  | Direction.OUTPUT => { s with enabled_output := l }
  | _ => { s with enabled_input := l }

/-- `find_dev` (cras_iodev_list.c). -/
def RoutingState.findDev (s : RoutingState) (idx : Nat) : Option IoDev :=
  s.devs.find? (fun d => d.idx = idx)

def RoutingState.updateDev (s : RoutingState) (idx : Nat) (f : IoDev → IoDev) :
    RoutingState :=
  { s with devs := s.devs.map (fun d => if d.idx = idx then f d else d) }

/-- `cras_iodev_list_dev_is_enabled` (cras_iodev_list.c): membership in the
enabled list of the device's direction. -/
def cras_iodev_list_dev_is_enabled (s : RoutingState) (dev : IoDev) : Bool :=
  dev.idx ∈ s.enabledList dev.direction

/-- `cras_iodev_is_open` (cras_iodev.h): the device state is not
`CRAS_IODEV_STATE_CLOSE`; the boolean `is_open` stands for that state
test. -/
def cras_iodev_is_open (dev : IoDev) : Bool :=
  dev.is_open

/-- `stream_list_has_pinned_stream` (stream_list.c, modelled on its use here):
some stream is pinned to the given device index. -/
def stream_list_has_pinned_stream (s : RoutingState) (idx : Nat) : Bool :=
  s.streams.any (fun st => st.is_pinned && st.pinned_dev_idx = idx)

/-- `is_dsp_aec_use_case` (cras_iodev_list.c): in NC standalone mode any node
but the internal speaker counts as a DSP AEC use case; otherwise defer to
the node checker. -/
def is_dsp_aec_use_case (sys : SysConfig) (dev : IoDev) : Bool :=
  if sys.nc_standalone_mode then
    dev.active_node_type ≠ NodeType.INTERNAL_SPEAKER
  else dev.dsp_aec_use_case

/-- `possibly_set_non_dsp_aec_echo_ref_dev_alive` (cras_iodev_list.c). -/
def possibly_set_non_dsp_aec_echo_ref_dev_alive (sys : SysConfig)
    (s : RoutingState) (dev : IoDev) : RoutingState × List REvent :=
  if s.nc.non_dsp_aec_echo_ref_dev_alive then (s, [])
  else if dev.idx < MAX_SPECIAL_DEVICE_IDX then (s, [])
  else if dev.direction = Direction.INPUT then (s, [])
  else if ¬ (cras_iodev_list_dev_is_enabled s dev || cras_iodev_is_open dev)
  then (s, [])
  else if ¬ is_dsp_aec_use_case sys dev then
    let (nc2, ev) := set_non_dsp_aec_echo_ref_dev_alive sys s.nc true
    ({ s with nc := nc2 }, ev)
  else (s, [])

/-- `possibly_clear_non_dsp_aec_echo_ref_dev_alive` (cras_iodev_list.c): keep
the flag while some enabled non-special output device, or some open device
with a pinned output-side stream, has an active node that is not a DSP AEC
use case; otherwise clear it. -/
def possibly_clear_non_dsp_aec_echo_ref_dev_alive (sys : SysConfig)
    (s : RoutingState) : RoutingState × List REvent :=
  if ¬ s.nc.non_dsp_aec_echo_ref_dev_alive then (s, [])
  else if (s.enabledList Direction.OUTPUT).any (fun idx =>
      MAX_SPECIAL_DEVICE_IDX ≤ idx &&
        match s.findDev idx with
        | some dev => ¬ is_dsp_aec_use_case sys dev
        | none => false) then (s, [])
  else if s.streams.any (fun st =>
      st.direction ≠ Direction.INPUT && st.is_pinned &&
        match s.findDev st.pinned_dev_idx with
        | some dev =>
          MAX_SPECIAL_DEVICE_IDX ≤ dev.idx && ¬ is_dsp_aec_use_case sys dev
        | none => false) then (s, [])
  else
    let (nc2, ev) := set_non_dsp_aec_echo_ref_dev_alive sys s.nc false
    ({ s with nc := nc2 }, ev)

/-- `close_dev` (cras_iodev_list.c): no-op when the device is closed;
otherwise detach all its streams, close it (device `close` releases the
format), and re-evaluate the NC-blocked flag. Echo-reference server streams
are outside the model. -/
def close_dev (sys : SysConfig) (s : RoutingState) (idx : Nat) :
    RoutingState × List REvent :=
  match s.findDev idx with
  | none => (s, [])
  | some dev =>
    if ¬ cras_iodev_is_open dev then (s, [])
    else
      let s2 := s.updateDev idx (fun d =>
        { d with attached := [], is_open := false, format_num_channels := none })
      let (s3, ev) := possibly_clear_non_dsp_aec_echo_ref_dev_alive sys s2
      (s3, [REvent.streamsRemoved idx, REvent.devClosed idx] ++ ev)

/-- `init_device` (cras_iodev_list.c): no-op when already open; otherwise open
the device for the given stream and re-evaluate the NC-blocked flag.
`cras_iodev_open` itself is not under src/ and is modelled from the spec
(§4.6 `open` installs the requested format): it succeeds and the device's
format takes the stream's channel count. `audio_thread_add_open_dev` and the
echo-reference hook are outside the model. -/
def init_device (sys : SysConfig) (s : RoutingState) (idx : Nat)
    (rstream : RStream) : Int × RoutingState × List REvent :=
  match s.findDev idx with
  | none => (0, s, [])
  | some dev =>
    if cras_iodev_is_open dev then (0, s, [])
    else
      let dev2 := { dev with is_open := true,
                             format_num_channels := some rstream.num_channels }
      let s2 := s.updateDev idx (fun _ => dev2)
      let (s3, ev) := possibly_set_non_dsp_aec_echo_ref_dev_alive sys s2 dev2
      (0, s3, [REvent.devOpened idx rstream.num_channels] ++ ev)

/-- `add_stream_to_open_devs` (cras_iodev_list.c): hand the stream to the
audio thread for all the given devices (APM wiring is outside the model);
the audio-thread add is modelled as recording the stream id on each
device. -/
def add_stream_to_open_devs (s : RoutingState) (stream : RStream)
    (idxs : List Nat) : Int × RoutingState × List REvent :=
  let s2 := idxs.foldl (fun acc idx =>
    acc.updateDev idx (fun d => { d with attached := d.attached ++ [stream.id] })) s
  (0, s2, [REvent.streamAttached stream.id idxs])

/-- The `can_attach` decision inside `init_and_attach_streams`
(cras_iodev_list.c): a normal stream attaches when the device is enabled; a
pinned stream attaches to its pinned device or to a silent fallback
device. -/
def can_attach (dir : Direction) (idx : Nat) (dev_enabled : Bool)
    (st : RStream) : Bool :=
  if st.direction ≠ dir then false
  else if ¬ st.is_pinned then dev_enabled
  else st.pinned_dev_idx = idx || idx = SILENT_PLAYBACK_DEVICE ||
    idx = SILENT_RECORD_DEVICE

/-- The stream loop of `init_and_attach_streams` (cras_iodev_list.c): walk
the stream list, and for every attachable stream open the device (first
iteration) and attach the stream. In the model the device open succeeds, so
the source's early error return is not taken. -/
def iasGo (sys : SysConfig) (dir : Direction) (idx : Nat)
    (dev_enabled : Bool) : List RStream → RoutingState →
    Int × RoutingState × List REvent
  | [], s => (0, s, [])
  | st :: rest, s =>
    if can_attach dir idx dev_enabled st then
      let (_, s2, ev1) := init_device sys s idx st
      let (_, s3, ev2) := add_stream_to_open_devs s2 st [idx]
      let (r, s4, ev3) := iasGo sys dir idx dev_enabled rest s3
      (r, s4, ev1 ++ ev2 ++ ev3)
    else iasGo sys dir idx dev_enabled rest s

/-- `init_and_attach_streams` (cras_iodev_list.c). -/
def init_and_attach_streams (sys : SysConfig) (s : RoutingState) (idx : Nat) :
    Int × RoutingState × List REvent :=
  match s.findDev idx with
  | none => (0, s, [])
  | some dev =>
    if s.stream_list_suspended then (0, s, [])
    else
      iasGo sys dev.direction idx (cras_iodev_list_dev_is_enabled s dev)
        s.streams s

/-- `enable_device` (cras_iodev_list.c): refuse with `-EEXIST` when the
device is already on the enabled list of its direction; otherwise append it,
mark it enabled, attach the active streams, run the enabled callbacks
(external observers, not modelled) and re-evaluate the NC-blocked flag. -/
def enable_device (sys : SysConfig) (s : RoutingState) (idx : Nat) :
    Int × RoutingState × List REvent :=
  match s.findDev idx with
  | none => (0, s, [])
  | some dev =>
    let dir := dev.direction
    if idx ∈ s.enabledList dir then (-EEXIST, s, [])
    else
      let s2 := (s.setEnabledList dir (s.enabledList dir ++ [idx])).updateDev
        idx (fun d => { d with is_enabled := true })
      let (rc, s3, ev) := init_and_attach_streams sys s2 idx
      if rc < 0 then
        (rc, s3, [REvent.devEnabled idx] ++ ev ++ [REvent.initRetryScheduled idx])
      else
        let (s4, ev2) :=
          match s3.findDev idx with
          | some dev2 => possibly_set_non_dsp_aec_echo_ref_dev_alive sys s3 dev2
          | none => (s3, [])
        (0, s4, [REvent.devEnabled idx] ++ ev ++ ev2)

/-- `disable_device` (cras_iodev_list.c): drop the entry from the enabled
list and clear `is_enabled`. With `force`, cancel pending init retries
(timer bookkeeping, outside the model) and fall through to the close path;
without `force`, if a stream is pinned to the device, merely disconnect the
normal streams of its direction and return. The close path runs the
disabled callbacks (external observers, not modelled), closes the device,
deconfigures its active node and re-evaluates the NC-blocked flag. -/
def disable_device (sys : SysConfig) (s : RoutingState) (idx : Nat)
    (force : Bool) : RoutingState × List REvent :=
  match s.findDev idx with
  | none => (s, [])
  | some dev =>
    let dir := dev.direction
    let s2 := (s.setEnabledList dir ((s.enabledList dir).erase idx)).updateDev
      idx (fun d => { d with is_enabled := false })
    if force then
      let (s3, ev) := close_dev sys s2 idx
      let (s4, ev2) := possibly_clear_non_dsp_aec_echo_ref_dev_alive sys s3
      (s4, [REvent.devDisabled idx] ++ ev ++
        [REvent.updateActiveNode idx 0] ++ ev2)
    else if stream_list_has_pinned_stream s2 idx then
      let s3 := s2.updateDev idx (fun d =>
        { d with attached := d.attached.filter (fun sid =>
            ¬ s2.streams.any (fun st =>
              st.id = sid && st.direction = dir && ¬ st.is_pinned)) })
      (s3, [REvent.devDisabled idx])
    else
      let (s3, ev) := close_dev sys s2 idx
      let (s4, ev2) := possibly_clear_non_dsp_aec_echo_ref_dev_alive sys s3
      (s4, [REvent.devDisabled idx] ++ ev ++
        [REvent.updateActiveNode idx 0] ++ ev2)

/-- `possibly_disable_fallback` (cras_iodev_list.c): disable the fallback
device of the direction if it is on the enabled list (the enabled list never
holds duplicates, so the source's loop disables at most one entry). -/
def possibly_disable_fallback (sys : SysConfig) (s : RoutingState)
    (dir : Direction) : RoutingState × List REvent :=
  if fallback_idx dir ∈ s.enabledList dir then
    disable_device sys s (fallback_idx dir) false
  else (s, [])

/-- `possibly_enable_fallback` (cras_iodev_list.c): stamp the fallback's
active node type with the reason (ABNORMAL when engaged because nothing else
works) and enable it unless already enabled. -/
def possibly_enable_fallback (sys : SysConfig) (s : RoutingState)
    (dir : Direction) (error : Bool) : RoutingState × List REvent :=
  let nt := if error then NodeType.FALLBACK_ABNORMAL
            else NodeType.FALLBACK_NORMAL
  let s2 := s.updateDev (fallback_idx dir)
    (fun d => { d with active_node_type := nt })
  if fallback_idx dir ∈ s2.enabledList dir then (s2, [])
  else
    let (_, s3, ev) := enable_device sys s2 (fallback_idx dir)
    (s3, ev)

/-- `restart_dev` (cras_iodev_list.c): close the device, deconfigure and
reconfigure its active node, then re-open it and re-attach the active
streams (a failed re-init would schedule a retry; the modelled open
succeeds). -/
def restart_dev (sys : SysConfig) (s : RoutingState) (idx : Nat) :
    RoutingState × List REvent :=
  match s.findDev idx with
  | none => (s, [])
  | some _ =>
    let (s2, ev1) := close_dev sys s idx
    let (rc, s3, ev2) := init_and_attach_streams sys s2 idx
    let evR := if rc ≠ 0 then [REvent.initRetryScheduled idx] else []
    (s3, ev1 ++ [REvent.updateActiveNode idx 0, REvent.updateActiveNode idx 1]
      ++ ev2 ++ evR)

/-- `find_pinned_device` (cras_iodev_list.c): resolve the pinned device; a
hotword stream additionally requires a HOTWORD active node and is redirected
to the empty hotword device while hotword streams are suspended. -/
def find_pinned_device (s : RoutingState) (rstream : RStream) : Option Nat :=
  if ¬ rstream.is_pinned then none
  else
    let dev? := s.findDev rstream.pinned_dev_idx
    if ¬ rstream.hotword_stream then dev?.map (fun d => d.idx)
    else
      match dev? with
      | some dev =>
        if dev.active_node_type ≠ NodeType.HOTWORD then none
        else some (if s.hotword_suspended then SILENT_HOTWORD_DEVICE
                   else dev.idx)
      | none =>
        if s.hotword_suspended then some SILENT_HOTWORD_DEVICE else none

/-- `init_pinned_device` (cras_iodev_list.c): reconfigure the active node and
open the device unless the audio thread already has it open. -/
def init_pinned_device (sys : SysConfig) (s : RoutingState) (idx : Nat)
    (rstream : RStream) : Int × RoutingState × List REvent :=
  match s.findDev idx with
  | none => (0, s, [])
  | some dev =>
    if cras_iodev_is_open dev then (0, s, [])
    else
      let (rc, s2, ev) := init_device sys s idx rstream
      (rc, s2, [REvent.updateActiveNode idx 1] ++ ev)

/-- `pinned_stream_added` (cras_iodev_list.c). -/
def pinned_stream_added (sys : SysConfig) (s : RoutingState)
    (rstream : RStream) : Int × RoutingState × List REvent :=
  match find_pinned_device s rstream with
  | none => (-EINVAL, s, [])
  | some idx =>
    let (rc, s2, ev) := init_pinned_device sys s idx rstream
    if rc ≠ 0 then (0, s2, ev ++ [REvent.initRetryScheduled idx])
    else
      let (r2, s3, ev2) := add_stream_to_open_devs s2 rstream [idx]
      (r2, s3, ev ++ ev2)

/-- Modelled from the spec: `cras_floop_pair_match_output_stream`
(cras_floop_iodev.c is not under src/) — §4.9: an output stream matches a
floop pair when the stream's `client_type` bit is set in the pair's
`client_types_mask`. -/
def cras_floop_pair_match_output_stream (mask : Nat) (st : RStream) : Bool :=
  mask.testBit st.client_type

/-- The enabled-device loop of `stream_added_cb` (cras_iodev_list.c), over a
snapshot of the enabled list (the only device the body can append to the
live list is the fallback, which the loop skips). Accumulates the devices to
attach (capped at `NUM_OPEN_DEVS_MAX`) and whether some device was re-opened
for a higher channel count; in the model `init_device` succeeds, so the
source's failure branch (HFP-transition tolerance, retry scheduling) is not
taken. -/
def saGo (sys : SysConfig) (rstream : RStream) :
    List Nat → RoutingState → List Nat → Bool →
    RoutingState × List REvent × List Nat × Bool
  | [], s, iodevs, reopened => (s, [], iodevs, reopened)
  | idx :: rest, s, iodevs, reopened =>
    if idx = fallback_idx rstream.direction then
      saGo sys rstream rest s iodevs reopened
    else if NUM_OPEN_DEVS_MAX ≤ iodevs.length then (s, [], iodevs, reopened)
    else
      match s.findDev idx with
      | none => saGo sys rstream rest s iodevs reopened
      | some dev =>
        if cras_iodev_is_open dev &&
            (match dev.format_num_channels with
             | some ch => ch < rstream.num_channels
             | none => false) &&
            rstream.num_channels ≤ dev.max_supported_channels then
          let (sa, eva) := possibly_enable_fallback sys s rstream.direction false
          let (sb, evb) := restart_dev sys sa idx
          let (sc, evc, io2, re2) := saGo sys rstream rest sb iodevs true
          (sc, eva ++ evb ++ evc, io2, re2)
        else
          let (_, sa, eva) := init_device sys s idx rstream
          let (sb, evb, io2, re2) := saGo sys rstream rest sa (iodevs ++ [idx])
            reopened
          (sb, eva ++ evb, io2, re2)

/-- The flexible-loopback loop of `stream_added_cb` (cras_iodev_list.c):
open and collect the output side of every floop pair matching the stream,
with the same device cap. -/
def saFloop (sys : SysConfig) (rstream : RStream) :
    List (Nat × Nat) → RoutingState → List Nat →
    RoutingState × List REvent × List Nat
  | [], s, iodevs => (s, [], iodevs)
  | (fidx, mask) :: rest, s, iodevs =>
    if ¬ cras_floop_pair_match_output_stream mask rstream then
      saFloop sys rstream rest s iodevs
    else if NUM_OPEN_DEVS_MAX ≤ iodevs.length then (s, [], iodevs)
    else
      let (_, sa, eva) := init_device sys s fidx rstream
      let (sb, evb, io2) := saFloop sys rstream rest sa (iodevs ++ [fidx])
      (sb, eva ++ evb, io2)

/-- `stream_added_cb` (cras_iodev_list.c). -/
def stream_added_cb (sys : SysConfig) (s : RoutingState) (rstream : RStream) :
    Int × RoutingState × List REvent :=
  if s.stream_list_suspended then (0, s, [])
  else if rstream.is_pinned then pinned_stream_added sys s rstream
  else
    let dir := rstream.direction
    let (s1, ev1) :=
      if fallback_idx dir ∈ s.enabledList dir then
        let (_, sa, eva) := init_device sys s (fallback_idx dir) rstream
        let (_, sb, evb) := add_stream_to_open_devs sa rstream [fallback_idx dir]
        (sb, eva ++ evb)
      else (s, [])
    let (s2, ev2, iodevs, reopened) := saGo sys rstream (s1.enabledList dir) s1
      [] false
    let (s3, ev3, iodevs2) :=
      if rstream.direction = Direction.OUTPUT then
        saFloop sys rstream s2.floop_outputs s2 iodevs
      else (s2, [], iodevs)
    let (s4, ev4) :=
      if iodevs2 ≠ [] then
        let (_, sa, eva) := add_stream_to_open_devs s3 rstream iodevs2
        (sa, eva)
      else if ¬ reopened then possibly_enable_fallback sys s3 dir true
      else (s3, [])
    let (s5, ev5) :=
      if iodevs2 ≠ [] || reopened then possibly_disable_fallback sys s4 dir
      else (s4, [])
    (0, s5, ev1 ++ ev2 ++ ev3 ++ ev4 ++ ev5)

/-! ### Input node gain conversion -/

/-- Modelled from the spec: `DEFAULT_MAX_INPUT_NODE_GAIN` (the constant is
not under src/) — §4.6: `max_gain` is 2000 (in 100·dBFS units) for
non-internal mics. -/
def DEFAULT_MAX_INPUT_NODE_GAIN : Int := 2000

/-- `convert_dBFS_from_input_node_gain` (cras_iodev_list.c).
`max_internal_mic_gain` is `cras_system_get_max_internal_mic_gain()` (board
configuration, external); C integer division truncates toward zero
(`Int.tdiv`). -/
def convert_dBFS_from_input_node_gain (max_internal_mic_gain : Int)
    (gain : Int) (is_internal_mic : Bool) : Int :=
  let max_gain := if is_internal_mic then max_internal_mic_gain
                  else DEFAULT_MAX_INPUT_NODE_GAIN
  let g1 := if gain < 0 then 0 else gain
  let g2 := if g1 > 100 then 100 else g1
  let db_scale := if g2 > 50 then max_gain.tdiv 50 else 40
  (g2 - 50) * db_scale

/-! ### Flexible loopback request -/

/-- The parameters of a floop request (`struct cras_floop_params`). -/
structure FloopParams where
  client_types_mask : Nat
deriving DecidableEq, Repr

/-- A created floop pair, reduced to its request params and the device index
of its input side. -/
structure FloopPair where
  params : FloopParams
  input_idx : Nat
deriving DecidableEq, Repr

/-- Modelled from the spec: `cras_floop_pair_match_params`
(cras_floop_iodev.c is not under src/) — §4.9: a pair matches a request when
the params are equal. -/
def cras_floop_pair_match_params (fpair : FloopPair) (params : FloopParams) :
    Bool :=
  fpair.params = params

def NUM_FLOOP_PAIRS_MAX : Nat := 20

/-- Modelled from the spec: `cras_floop_pair_create` — allocation succeeds
and the input-side device receives a fresh index (supplied here by the
environment). -/
def cras_floop_pair_create (params : FloopParams) (next_input_idx : Nat) :
    FloopPair :=
  ⟨params, next_input_idx⟩

/-- `cras_iodev_list_request_floop` (cras_iodev_list.c): refuse when the
feature flag is off; return the input index of the first pair with matching
params; refuse with `-EAGAIN` when the list already holds
`NUM_FLOOP_PAIRS_MAX` pairs; otherwise create and append a new pair and
return its input index. (The source counts the traversed pairs; with no
match the count is the list length.) -/
def cras_iodev_list_request_floop (feature_enabled : Bool)
    (pairs : List FloopPair) (params : FloopParams) (next_input_idx : Nat) :
    Int × List FloopPair :=
  if ¬ feature_enabled then (-ENOTSUP, pairs)
  else
    match pairs.find? (fun p => cras_floop_pair_match_params p params) with
    | some fpair => ((fpair.input_idx : Int), pairs)
    | none =>
      if NUM_FLOOP_PAIRS_MAX ≤ pairs.length then (-EAGAIN, pairs)
      else
        let fpair := cras_floop_pair_create params next_input_idx
        ((fpair.input_idx : Int), pairs ++ [fpair])

/-! ### Concrete fixtures used by counterexamples and witnesses -/

/-- The stream parameters of spec scenario 2:
`{OUTPUT, S16LE, 48000, 2ch, buffer_frames=4096, cb_threshold=480}`. -/
def exConfig : StreamConfig := ⟨4096, 480, false⟩

def exStream : ClientStream := ⟨Direction.OUTPUT, exConfig⟩

def exStreamIn : ClientStream := ⟨Direction.INPUT, exConfig⟩

/-- An empty playback SAB with 4-byte frames (16-bit stereo). -/
def exShm : AudioShm := ⟨4, 1920, 0, 0, fun _ => 0, fun _ => 0⟩

/-- A capture SAB holding 100 readable frames (400 bytes). -/
def exShmCap : AudioShm := ⟨4, 1920, 0, 0, fun _ => 400, fun _ => 0⟩

/-- A user callback that writes silence and accepts every offered frame
count. -/
def exCb : Nat → Int := fun nf => (nf : Int)

/-- A non-fallback output device, open at 2 channels, supporting up to 6. -/
def exDev : IoDev :=
  ⟨5, Direction.OUTPUT, true, some 2, 6, true, NodeType.OTHER, true, []⟩

/-- The output fallback (silent) device, closed and disabled. -/
def exFallback : IoDev :=
  ⟨SILENT_PLAYBACK_DEVICE, Direction.OUTPUT, false, none, 2, false,
   NodeType.FALLBACK_NORMAL, true, []⟩

/-- A 6-channel non-pinned output stream. -/
def exRStream : RStream := ⟨100, Direction.OUTPUT, 6, false, 0, false, 0⟩

/-- A routing state where `exDev` is the only enabled output device. -/
def exState : RoutingState :=
  ⟨[exDev, exFallback], [5], [], [exRStream], [], ⟨false, false⟩, false, false⟩

def exSys : SysConfig := ⟨false, true, false⟩

/-! ## Theorems -/

/-- C9: for gain g in 0..100 on a non-internal mic the computed dBFS value is
`(g - 50) * 40` (in 100·dBFS units), so `[0,50)` lands in `[-2000, 0)` and
`[50,100]` lands in `[0, 2000]` (max_gain = 2000); for internal mics the
upper half `(50,100]` scales by the board-configured maximum gain divided
by 50. -/
theorem convert_input_node_gain_spec (maxg g : Int) (h0 : 0 ≤ g)
    (h100 : g ≤ 100) :
    convert_dBFS_from_input_node_gain maxg g false = (g - 50) * 40 ∧
    (g < 50 → -2000 ≤ (g - 50) * 40 ∧ (g - 50) * 40 < 0) ∧
    (50 ≤ g → 0 ≤ (g - 50) * 40 ∧ (g - 50) * 40 ≤ 2000) ∧
    (50 < g → convert_dBFS_from_input_node_gain maxg g true
      = (g - 50) * (maxg.tdiv 50)) := by
  have hn : ¬ g < 0 := by omega
  have hh : ¬ g > 100 := by omega
  have htd : (2000 : Int).tdiv 50 = 40 := by decide
  refine ⟨?_, fun h => by constructor <;> omega,
          fun h => by constructor <;> omega, fun h => ?_⟩
  · unfold convert_dBFS_from_input_node_gain DEFAULT_MAX_INPUT_NODE_GAIN
    simp only [Bool.false_eq_true, if_false, if_neg hn, if_neg hh]
    by_cases hg : g > 50
    · rw [if_pos hg, htd]
    · rw [if_neg hg]
  · unfold convert_dBFS_from_input_node_gain
    simp only [if_pos rfl, if_neg hn, if_neg hh, if_pos h]
    rfl

/-- C9 witness: instantiation at gain 80 with internal-mic max gain 1000. -/
theorem convert_input_node_gain_witness :
    (0 : Int) ≤ 80 ∧ (80 : Int) ≤ 100 ∧
    (convert_dBFS_from_input_node_gain 1000 80 false = (80 - 50) * 40 ∧
     ((80 : Int) < 50 → -2000 ≤ ((80 : Int) - 50) * 40 ∧
        ((80 : Int) - 50) * 40 < 0) ∧
     ((50 : Int) ≤ 80 → 0 ≤ ((80 : Int) - 50) * 40 ∧
        ((80 : Int) - 50) * 40 ≤ 2000) ∧
     ((50 : Int) < 80 → convert_dBFS_from_input_node_gain 1000 80 true
        = (80 - 50) * ((1000 : Int).tdiv 50))) :=
  ⟨by norm_num, by norm_num,
   convert_input_node_gain_spec 1000 80 (by norm_num) (by norm_num)⟩

/-- C6: with the flexible-loopback feature enabled, a floop request returns
the input-side device index of an existing pair with matching params without
touching the list; with no matching pair and the list at
`NUM_FLOOP_PAIRS_MAX` (20) pairs it returns `-EAGAIN` and leaves the list
unchanged; otherwise it appends exactly one pair and returns its input-side
index. -/
theorem request_floop_spec (pairs : List FloopPair) (params : FloopParams)
    (next_input_idx : Nat) :
    (∀ fpair,
      pairs.find? (fun p => cras_floop_pair_match_params p params)
          = some fpair →
      cras_iodev_list_request_floop true pairs params next_input_idx
        = ((fpair.input_idx : Int), pairs)) ∧
    ((∀ p ∈ pairs, cras_floop_pair_match_params p params = false) →
      NUM_FLOOP_PAIRS_MAX ≤ pairs.length →
      cras_iodev_list_request_floop true pairs params next_input_idx
        = (-EAGAIN, pairs)) ∧
    ((∀ p ∈ pairs, cras_floop_pair_match_params p params = false) →
      pairs.length < NUM_FLOOP_PAIRS_MAX →
      cras_iodev_list_request_floop true pairs params next_input_idx
        = ((next_input_idx : Int), pairs ++ [⟨params, next_input_idx⟩])) := by
  refine ⟨fun fpair hfind => ?_, fun hno hfull => ?_, fun hno hroom => ?_⟩
  · unfold cras_iodev_list_request_floop
    simp only [hfind]
    rfl
  · have hnone : pairs.find? (fun p => cras_floop_pair_match_params p params)
        = none := by
      rw [List.find?_eq_none]
      intro p hp
      simp [hno p hp]
    unfold cras_iodev_list_request_floop
    simp only [hnone]
    simp [if_pos hfull]
  · have hnone : pairs.find? (fun p => cras_floop_pair_match_params p params)
        = none := by
      rw [List.find?_eq_none]
      intro p hp
      simp [hno p hp]
    unfold cras_iodev_list_request_floop
    simp only [hnone]
    rw [if_neg (Nat.not_le.mpr hroom)]
    rfl

/-- C6 witness: a request against an empty pair list creates one pair and
returns its input index. -/
theorem request_floop_witness :
    cras_iodev_list_request_floop true [] ⟨3⟩ 7
      = ((7 : Int), [⟨⟨3⟩, 7⟩]) :=
  (request_floop_spec [] ⟨3⟩ 7).2.2 (by simp) (by decide)

/-- C4 counterexample: with NC standalone mode on, the NC-blocked flag is
`non_dsp_aec_echo_ref_dev_alive` alone and differs from the disjunction of
the two conditions; moreover, with DSP noise cancellation unsupported a
transition of the flag's value fires no `NODES_CHANGED` notification at
all. -/
theorem nc_blocked_counterexample :
    (get_nc_blocked_state ⟨true, true, false⟩ ⟨false, true⟩ = false ∧
      (false || true) = true) ∧
    (get_nc_blocked_state ⟨false, false, false⟩ ⟨false, false⟩
        ≠ get_nc_blocked_state ⟨false, false, false⟩ ⟨true, false⟩ ∧
      update_nc_blocked_state ⟨false, false, false⟩ ⟨false, false⟩ true false
        = (⟨true, false⟩, [])) := by
  decide

/-- C4 (amended): outside NC standalone mode the NC-blocked flag equals
`non_dsp_aec_echo_ref_dev_alive OR aec_on_dsp_is_disallowed`; in standalone
mode it equals `non_dsp_aec_echo_ref_dev_alive` alone. A flag-value
transition fires exactly one `NODES_CHANGED` notification when DSP noise
cancellation is supported and blocking is not bypassed, and none
otherwise. -/
theorem nc_blocked_state_spec (sys : SysConfig) (st : NcState) (a b : Bool) :
    (sys.nc_standalone_mode = false →
      get_nc_blocked_state sys st
        = (st.non_dsp_aec_echo_ref_dev_alive || st.aec_on_dsp_is_disallowed)) ∧
    (sys.nc_standalone_mode = true →
      get_nc_blocked_state sys st = st.non_dsp_aec_echo_ref_dev_alive) ∧
    (update_nc_blocked_state sys st a b).1 = ⟨a, b⟩ ∧
    (update_nc_blocked_state sys st a b).2.count REvent.nodesChanged
      = (if get_nc_blocked_state sys st ≠ get_nc_blocked_state sys ⟨a, b⟩ ∧
            sys.dsp_nc_supported = true ∧ sys.bypass_block_nc = false
         then 1 else 0) := by
  rcases sys with ⟨sm, ds, bp⟩
  rcases st with ⟨x, y⟩
  revert a b
  cases sm <;> cases ds <;> cases bp <;> cases x <;> cases y <;> decide

/-- C4 witness: instantiation showing a non-standalone transition that fires
exactly one notification. -/
theorem nc_blocked_state_witness :
    ((⟨false, true, false⟩ : SysConfig).nc_standalone_mode = false →
      get_nc_blocked_state ⟨false, true, false⟩ ⟨false, false⟩
        = (false || false)) ∧
    ((⟨false, true, false⟩ : SysConfig).nc_standalone_mode = true →
      get_nc_blocked_state ⟨false, true, false⟩ ⟨false, false⟩ = false) ∧
    (update_nc_blocked_state ⟨false, true, false⟩ ⟨false, false⟩ true
        false).1 = ⟨true, false⟩ ∧
    (update_nc_blocked_state ⟨false, true, false⟩ ⟨false, false⟩ true
        false).2.count REvent.nodesChanged
      = (if get_nc_blocked_state ⟨false, true, false⟩ ⟨false, false⟩
              ≠ get_nc_blocked_state ⟨false, true, false⟩ ⟨true, false⟩ ∧
            (⟨false, true, false⟩ : SysConfig).dsp_nc_supported = true ∧
            (⟨false, true, false⟩ : SysConfig).bypass_block_nc = false
         then 1 else 0) :=
  nc_blocked_state_spec ⟨false, true, false⟩ ⟨false, false⟩ true false

/-- C2 counterexample: an audio message with an id outside the known
enumerators is silently dropped — the audio task keeps running with nothing
changed — whereas a short read makes the task exit with `-EIO`; so an
unrecognized id is not fatal. -/
theorem audio_thread_unknown_id_counterexample :
    audio_thread_iteration exStream exCb exShm
        (Incoming.message (AudioMsgId.unknownId 42) 0 480)
      = ThreadStep.continued false exShm [] ∧
    audio_thread_iteration exStream exCb exShm Incoming.shortRead
      = ThreadStep.exited (- EIO) :=
  ⟨rfl, rfl⟩

/-- C2 (amended): a short read of the 6-byte audio message record is fatal —
the audio task exits returning `-EIO` — but an audio message whose id is
neither `AUDIO_MESSAGE_DATA_READY` nor `AUDIO_MESSAGE_REQUEST_DATA` is
silently ignored: the task continues with the shm state unchanged and emits
nothing. -/
theorem audio_thread_unknown_id_spec (stream : ClientStream) (cb : Nat → Int)
    (shm : AudioShm) (n : Nat) (e : Int) (f : Nat) :
    audio_thread_iteration stream cb shm
        (Incoming.message (AudioMsgId.unknownId n) e f)
      = ThreadStep.continued false shm [] ∧
    audio_thread_iteration stream cb shm
        (Incoming.message AudioMsgId.DATA_CAPTURED e f)
      = ThreadStep.continued false shm [] ∧
    audio_thread_iteration stream cb shm Incoming.shortRead
      = ThreadStep.exited (- EIO) :=
  ⟨rfl, rfl, rfl⟩

/-- C3: when a capture `DATA_READY{n}` arrives and the SAB's readable frames
are fewer than the clamped request (a server-side overrun corrupted the
buffer), the handler returns without invoking the user callback, without
advancing the read pointer, and without sending any reply. -/
theorem capture_overrun_spec (stream : ClientStream) (cb : Nat → Int)
    (n : Nat) (shm : AudioShm)
    (hin : cras_stream_has_input stream.direction = true)
    (hov : cras_shm_get_curr_read_frames shm < capture_req_frames stream n) :
    handle_capture_data_ready stream cb n shm = (0, shm, []) := by
  have h1 : config_capture_buf stream n shm = 0 := by
    unfold config_capture_buf
    rw [if_pos hov]
  unfold handle_capture_data_ready
  rw [hin]
  simp [h1]

/-- C3 witness: a 480-frame `DATA_READY` against a buffer holding only 100
readable frames. -/
theorem capture_overrun_witness :
    cras_stream_has_input exStreamIn.direction = true ∧
    cras_shm_get_curr_read_frames exShmCap
      < capture_req_frames exStreamIn 480 ∧
    handle_capture_data_ready exStreamIn exCb 480 exShmCap
      = (0, exShmCap, []) :=
  ⟨by decide, by decide,
   capture_overrun_spec exStreamIn exCb 480 exShmCap (by decide) (by decide)⟩

/-- C1: on `REQUEST_DATA{n}` for a playback stream the user callback is
offered exactly `min(n, cb_threshold)` frames of write space; when it
returns `k ≥ 0` the write pointer advances by exactly `k` frames
(`k * frame_bytes` bytes) and the task replies `DATA_READY{k, 0}` on the
audio fd; when it returns `k < 0` the task sends `CLIENT_STREAM_EOF` on the
stream pipe, leaves the shm untouched, and the reply instead carries the
negative error. -/
theorem playback_request_spec (stream : ClientStream) (cb : Nat → Int)
    (n : Nat) (shm : AudioShm) (k : Int)
    (hdir : stream.direction = Direction.OUTPUT)
    (hk : k = cb (min n stream.config.cb_threshold)) :
    (0 ≤ k →
      handle_playback_request stream cb n shm
        = (0, cras_shm_buffer_written_start shm k.toNat,
           [AEvent.callbackInvoked (min n stream.config.cb_threshold),
            AEvent.playbackReply (toU32 k) 0]) ∧
      (cras_shm_buffer_written_start shm k.toNat).write_offset
          shm.write_buf_idx
        = shm.write_offset shm.write_buf_idx + k.toNat * shm.frame_bytes ∧
      (k < 2 ^ 31 → toU32 k = k.toNat)) ∧
    (k < 0 →
      handle_playback_request stream cb n shm
        = (0, shm,
           [AEvent.callbackInvoked (min n stream.config.cb_threshold),
            AEvent.streamEof,
            AEvent.playbackReply (toU32 k) (toI8 k)]) ∧
      (-128 ≤ k → toI8 k = k)) := by
  subst hk
  constructor
  · intro hpos
    have hneg : ¬ cb (min n stream.config.cb_threshold) < 0 := by omega
    refine ⟨?_, ?_, ?_⟩
    · unfold handle_playback_request send_playback_reply
        cras_stream_uses_output_hw
      simp only [hdir, ne_eq, not_true_eq_false, if_false, hneg]
      norm_num [toI8]
    · unfold cras_shm_buffer_written_start
      simp [Function.update_same]
    · intro hlt
      unfold toU32
      have h32 : (2 : Int) ^ 32 = 4294967296 := by norm_num
      have h31 : (2 : Int) ^ 31 = 2147483648 := by norm_num
      rw [h32]
      rw [h31] at hlt
      omega
  · intro hneg
    refine ⟨?_, ?_⟩
    · unfold handle_playback_request send_playback_reply
        cras_stream_uses_output_hw
      simp only [hdir, ne_eq, not_true_eq_false, if_false, hneg, if_true]
      norm_num
    · intro hge
      unfold toI8
      omega

/-- C1 witness: spec scenario 2 — the callback accepts 480 frames, the write
pointer advances by 480 frames and `DATA_READY{480, 0}` goes on the wire. -/
theorem playback_request_witness :
    exStream.direction = Direction.OUTPUT ∧
    handle_playback_request exStream exCb 480 exShm
      = (0, cras_shm_buffer_written_start exShm 480,
         [AEvent.callbackInvoked 480, AEvent.playbackReply (toU32 480) 0]) :=
  ⟨rfl,
   ((playback_request_spec exStream exCb 480 exShm 480 rfl rfl).1
     (by norm_num)).1⟩

/-- Every event emitted by the re-registration walk is a registration
message. -/
theorem reregister_go_events (ops : ObserverOps) (send : NotifyKind → Int) :
    ∀ (l : List NotifyKind) (e : CEvent),
      e ∈ (reregister_go ops send l).2 →
      ∃ kind, e = CEvent.registerSent kind := by
  intro l
  induction l with
  | nil => intro e he; simp [reregister_go] at he
  | cons k rest ih =>
    intro e he
    unfold reregister_go at he
    by_cases hr : ops.registered k = true
    · rw [if_pos hr] at he
      by_cases h0 : cras_send_register_notification send k ≠ 0
      · rw [if_pos h0] at he
        simp at he
        exact ⟨k, he⟩
      · rw [if_neg h0] at he
        rcases hp : reregister_go ops send rest with ⟨r, ev⟩
        rw [hp] at he
        simp at he
        rcases he with he | he
        · exact ⟨k, he⟩
        · exact ih e (by rw [hp]; exact he)
    · rw [if_neg hr] at he
      exact ih e he

/-- When every registered callback re-registers cleanly, the walk returns 0
and emits exactly one registration per registered callback, in source
order. -/
theorem reregister_go_success (ops : ObserverOps) (send : NotifyKind → Int) :
    ∀ l : List NotifyKind,
      (∀ kind ∈ l, ops.registered kind = true →
        cras_send_register_notification send kind = 0) →
      reregister_go ops send l
        = (0, (l.filter (fun kind => ops.registered kind)).map
            CEvent.registerSent) := by
  intro l
  induction l with
  | nil => intro _; rfl
  | cons k rest ih =>
    intro h
    unfold reregister_go
    by_cases hr : ops.registered k = true
    · rw [if_pos hr]
      have h0 : cras_send_register_notification send k = 0 :=
        h k (by simp) hr
      rw [h0]
      have ihr := ih (fun kind hk hreg => h kind (List.mem_cons_of_mem _ hk)
        hreg)
      simp [ihr, List.filter_cons, hr]
    · rw [if_neg hr]
      have ihr := ih (fun kind hk hreg => h kind (List.mem_cons_of_mem _ hk)
        hreg)
      simp [ihr, List.filter_cons, hr]

/-- C7: on the transition into CONNECTED every state-change notification the
application had registered is re-registered with the server, in source
order, and only then is `server_event_fd` set to 1 and the connection
callback fired with CONNECTED; if the re-registration returns a negative
error the client state is unchanged — in particular the socket state does
not become CONNECTED — and no event-fd write and no connection callback
happens (only registration messages were emitted). -/
theorem connect_transition_spec (c : ClientCtl) (send : NotifyKind → Int) :
    ((∀ kind, c.observer_ops.registered kind = true →
        cras_send_register_notification send kind = 0) →
      connect_transition_action c send
        = (0, { c with server_fd_state := SocketState.CONNECTED,
                       server_event_fd := 1 },
           ((notifyOrder.filter
               (fun kind => c.observer_ops.registered kind)).map
              CEvent.registerSent)
             ++ [CEvent.serverEventFdSet 1]
             ++ (if c.has_connection_cb
                 then [CEvent.connectionCb ConnStatus.CONNECTED] else []))) ∧
    ((reregister_notifications c.observer_ops send).1 < 0 →
      (connect_transition_action c send).1
          = (reregister_notifications c.observer_ops send).1 ∧
      (connect_transition_action c send).2.1 = c ∧
      ∀ e ∈ (connect_transition_action c send).2.2,
        ∃ kind, e = CEvent.registerSent kind) := by
  constructor
  · intro hok
    have hgo : reregister_notifications c.observer_ops send
        = (0, (notifyOrder.filter
            (fun kind => c.observer_ops.registered kind)).map
            CEvent.registerSent) :=
      reregister_go_success c.observer_ops send notifyOrder
        (fun kind _ hreg => hok kind hreg)
    unfold connect_transition_action
    rw [hgo]
    norm_num
  · intro hlt
    unfold connect_transition_action
    rcases hp : reregister_notifications c.observer_ops send with ⟨rc, ev⟩
    rw [hp] at hlt
    simp only at hlt
    dsimp only
    rw [if_pos hlt]
    refine ⟨rfl, rfl, ?_⟩
    intro e he
    exact reregister_go_events c.observer_ops send notifyOrder e
      (by rw [show (reregister_go c.observer_ops send notifyOrder).2 = ev
              from congrArg Prod.snd hp]; exact he)

/-- C7 witness: a client with no registered callbacks and a connection
callback installed transitions to CONNECTED, sets the event fd to 1 and
fires the callback. -/
theorem connect_transition_witness :
    connect_transition_action
        ⟨SocketState.FIRST_MESSAGE, 0, true, ⟨fun _ => false⟩⟩ (fun _ => 0)
      = (0, ⟨SocketState.CONNECTED, 1, true, ⟨fun _ => false⟩⟩,
         [CEvent.serverEventFdSet 1,
          CEvent.connectionCb ConnStatus.CONNECTED]) :=
  (connect_transition_spec
      ⟨SocketState.FIRST_MESSAGE, 0, true, ⟨fun _ => false⟩⟩ (fun _ => 0)).1
    (fun kind h => by simp at h)

/-- Two candidates generated from the same client agree exactly when their
stream indices agree modulo 2^16. -/
theorem cras_get_stream_id_inj (c x y : Nat)
    (h : cras_get_stream_id c x = cras_get_stream_id c y) :
    x % 2 ^ 16 = y % 2 ^ 16 := by
  unfold cras_get_stream_id at h
  have h16 : (2 : Nat) ^ 16 = 65536 := by norm_num
  rw [h16] at h ⊢
  omega

/-- Under fewer than 2^16 live streams, some candidate among the next
`live.length + 1` indices is fresh. -/
theorem exists_fresh_stream_id (c next : Nat) (live : List Nat)
    (hlen : live.length < 2 ^ 16) :
    ∃ j ≤ live.length, cras_get_stream_id c (next + j) ∉ live := by
  by_contra hcon
  push_neg at hcon
  have hall : ∀ j ≤ live.length, cras_get_stream_id c (next + j) ∈ live :=
    hcon
  set f : Fin (live.length + 1) → Nat :=
    fun j => cras_get_stream_id c (next + (j : Nat)) with hf
  have hinj : Function.Injective f := by
    intro j1 j2 hj
    have hmod := cras_get_stream_id_inj c (next + (j1 : Nat))
      (next + (j2 : Nat)) hj
    have hb1 : (j1 : Nat) < 2 ^ 16 := lt_of_lt_of_le j1.isLt (by omega)
    have hb2 : (j2 : Nat) < 2 ^ 16 := lt_of_lt_of_le j2.isLt (by omega)
    have h16 : (2 : Nat) ^ 16 = 65536 := by norm_num
    rw [h16] at hmod hb1 hb2
    have : (j1 : Nat) = (j2 : Nat) := by omega
    exact Fin.ext this
  have hsub : Finset.univ.image f ⊆ live.toFinset := by
    intro x hx
    rcases Finset.mem_image.1 hx with ⟨j, _, rfl⟩
    exact List.mem_toFinset.2 (hall (j : Nat) (Nat.lt_succ_iff.1 j.isLt))
  have hcard1 : (Finset.univ.image f).card = live.length + 1 := by
    rw [Finset.card_image_of_injective _ hinj]
    simp
  have hcard2 : live.toFinset.card ≤ live.length := List.toFinset_card_le live
  have := Finset.card_le_card hsub
  omega

/-- Whenever some candidate within the fuel is fresh, the generation loop
returns a fresh id generated from one of the tried indices. -/
theorem find_avail_stream_id_spec (c : Nat) (live : List Nat) :
    ∀ (fuel next : Nat),
      (∃ j < fuel, cras_get_stream_id c (next + j) ∉ live) →
      ∃ id nxt, find_avail_stream_id c live next fuel = some (id, nxt) ∧
        id ∉ live ∧ ∃ j, id = cras_get_stream_id c (next + j) := by
  intro fuel
  induction fuel with
  | zero => intro next h; rcases h with ⟨j, hj, _⟩; omega
  | succ m ih =>
    intro next h
    unfold find_avail_stream_id
    by_cases hmem : cras_get_stream_id c next ∈ live
    · rw [if_pos hmem]
      rcases h with ⟨j, hj, hfresh⟩
      have hj0 : j ≠ 0 := by
        intro h0
        rw [h0, Nat.add_zero] at hfresh
        exact hfresh hmem
      have hstep : ∃ j < m, cras_get_stream_id c (next + 1 + j) ∉ live := by
        refine ⟨j - 1, by omega, ?_⟩
        have : next + 1 + (j - 1) = next + j := by omega
        rw [this]
        exact hfresh
      rcases ih (next + 1) hstep with ⟨id, nxt, heq, hnot, j2, hj2⟩
      exact ⟨id, nxt, heq, hnot, j2 + 1, by rw [hj2]; ring_nf⟩
    · rw [if_neg hmem]
      exact ⟨cras_get_stream_id c next, next + 1, rfl, hmem,
        0, by rw [Nat.add_zero]⟩

/-- C8: with fewer than 2^16 live streams on the client, the id-generation
loop of `client_thread_add_stream` terminates within `live.length + 1`
tries with an id of the form `(client_id << 16) | stream_index` (for a
stream index derived from the monotonically advanced `next_stream_id`) that
differs from the id of every stream currently in the client's list;
colliding candidates are skipped by advancing `next_stream_id`. -/
theorem client_stream_id_spec (c next : Nat) (live : List Nat)
    (hlen : live.length < 2 ^ 16) :
    ∃ id nxt,
      find_avail_stream_id c live next (live.length + 1) = some (id, nxt) ∧
      id ∉ live ∧ ∃ j, id = cras_get_stream_id c (next + j) := by
  rcases exists_fresh_stream_id c next live hlen with ⟨j, hj, hfresh⟩
  exact find_avail_stream_id_spec c live (live.length + 1) next
    ⟨j, by omega, hfresh⟩

/-- C8 witness: client 1 with one live stream occupying index 0 — the loop
skips the collision and returns the id for index 1. -/
theorem client_stream_id_witness :
    [cras_get_stream_id 1 0].length < 2 ^ 16 ∧
    ∃ id nxt,
      find_avail_stream_id 1 [cras_get_stream_id 1 0] 0 2 = some (id, nxt) ∧
      id ∉ [cras_get_stream_id 1 0] ∧
      ∃ j, id = cras_get_stream_id 1 (0 + j) :=
  ⟨by norm_num, client_stream_id_spec 1 0 [cras_get_stream_id 1 0]
    (by norm_num)⟩

/-- A found device carries the index it was looked up by. -/
theorem findDev_idx {s : RoutingState} {idx : Nat} {dev : IoDev}
    (h : s.findDev idx = some dev) : dev.idx = idx := by
  unfold RoutingState.findDev at h
  have := List.find?_some h
  simpa using this

/-- Looking a device up after an index-preserving in-place update. -/
theorem findDev_updateDev (s : RoutingState) (idx j : Nat) (f : IoDev → IoDev)
    (hf : ∀ d, d.idx = idx → (f d).idx = idx) :
    (s.updateDev idx f).findDev j
      = (s.findDev j).map (fun d => if d.idx = idx then f d else d) := by
  unfold RoutingState.findDev RoutingState.updateDev
  simp only
  induction s.devs with
  | nil => rfl
  | cons a l ih =>
    have hidx : (if a.idx = idx then f a else a).idx = a.idx := by
      by_cases h2 : a.idx = idx
      · rw [if_pos h2, hf a h2, h2]
      · rw [if_neg h2]
    simp only [List.map_cons, List.find?]
    rw [hidx]
    by_cases h : a.idx = j
    · simp [h]
    · simp [h, ih]

theorem enabledList_updateDev (s : RoutingState) (idx : Nat)
    (f : IoDev → IoDev) (d' : Direction) :
    (s.updateDev idx f).enabledList d' = s.enabledList d' := by
  cases d' <;> rfl

theorem streams_updateDev (s : RoutingState) (idx : Nat) (f : IoDev → IoDev) :
    (s.updateDev idx f).streams = s.streams := rfl

theorem floop_updateDev (s : RoutingState) (idx : Nat) (f : IoDev → IoDev) :
    (s.updateDev idx f).floop_outputs = s.floop_outputs := rfl

theorem susp_updateDev (s : RoutingState) (idx : Nat) (f : IoDev → IoDev) :
    (s.updateDev idx f).stream_list_suspended = s.stream_list_suspended := rfl

theorem hotword_updateDev (s : RoutingState) (idx : Nat) (f : IoDev → IoDev) :
    (s.updateDev idx f).hotword_suspended = s.hotword_suspended := rfl

theorem enabledList_setNc (s : RoutingState) (x : NcState) (d' : Direction) :
    ({ s with nc := x } : RoutingState).enabledList d' = s.enabledList d' := by
  cases d' <;> rfl

theorem findDev_setNc (s : RoutingState) (x : NcState) (j : Nat) :
    ({ s with nc := x } : RoutingState).findDev j = s.findDev j := rfl

theorem streams_setNc (s : RoutingState) (x : NcState) :
    ({ s with nc := x } : RoutingState).streams = s.streams := rfl

theorem floop_setNc (s : RoutingState) (x : NcState) :
    ({ s with nc := x } : RoutingState).floop_outputs = s.floop_outputs := rfl

theorem susp_setNc (s : RoutingState) (x : NcState) :
    ({ s with nc := x } : RoutingState).stream_list_suspended
      = s.stream_list_suspended := rfl

theorem hotword_setNc (s : RoutingState) (x : NcState) :
    ({ s with nc := x } : RoutingState).hotword_suspended
      = s.hotword_suspended := rfl

theorem findDev_setEnabledList (s : RoutingState) (d : Direction)
    (l : List Nat) (j : Nat) :
    (s.setEnabledList d l).findDev j = s.findDev j := by
  cases d <;> rfl

theorem streams_setEnabledList (s : RoutingState) (d : Direction)
    (l : List Nat) :
    (s.setEnabledList d l).streams = s.streams := by
  cases d <;> rfl

theorem floop_setEnabledList (s : RoutingState) (d : Direction)
    (l : List Nat) :
    (s.setEnabledList d l).floop_outputs = s.floop_outputs := by
  cases d <;> rfl

theorem susp_setEnabledList (s : RoutingState) (d : Direction)
    (l : List Nat) :
    (s.setEnabledList d l).stream_list_suspended = s.stream_list_suspended := by
  cases d <;> rfl

theorem hotword_setEnabledList (s : RoutingState) (d : Direction)
    (l : List Nat) :
    (s.setEnabledList d l).hotword_suspended = s.hotword_suspended := by
  cases d <;> rfl

theorem enabledList_setEnabledList_same (s : RoutingState) (d : Direction)
    (l : List Nat) :
    (s.setEnabledList d l).enabledList d = l := by
  cases d <;> rfl

/-- Evaluating the NC-set helper only rewrites the `nc` field. -/
theorem possibly_set_shape (sys : SysConfig) (s : RoutingState) (dev : IoDev) :
    ∃ nc' ev, possibly_set_non_dsp_aec_echo_ref_dev_alive sys s dev
      = ({ s with nc := nc' }, ev) := by
  unfold possibly_set_non_dsp_aec_echo_ref_dev_alive
  split_ifs <;> try exact ⟨s.nc, [], rfl⟩
  rcases h : set_non_dsp_aec_echo_ref_dev_alive sys s.nc true with ⟨a, b⟩
  exact ⟨a, b, rfl⟩

/-- Evaluating the NC-clear helper only rewrites the `nc` field. -/
theorem possibly_clear_shape (sys : SysConfig) (s : RoutingState) :
    ∃ nc' ev, possibly_clear_non_dsp_aec_echo_ref_dev_alive sys s
      = ({ s with nc := nc' }, ev) := by
  unfold possibly_clear_non_dsp_aec_echo_ref_dev_alive
  split_ifs <;> try exact ⟨s.nc, [], rfl⟩
  rcases h : set_non_dsp_aec_echo_ref_dev_alive sys s.nc false with ⟨a, b⟩
  exact ⟨a, b, rfl⟩

/-- Opening an already-open device is a no-op. -/
theorem init_device_open (sys : SysConfig) (s : RoutingState) (idx : Nat)
    (st : RStream) (dev : IoDev) (hfind : s.findDev idx = some dev)
    (ho : dev.is_open = true) :
    init_device sys s idx st = (0, s, []) := by
  unfold init_device
  rw [hfind]
  dsimp only [cras_iodev_is_open]
  rw [if_pos ho]

/-- Opening a closed device installs the stream's channel count and emits
the open event (followed by the NC re-evaluation, which only touches the
`nc` field). -/
theorem init_device_closed (sys : SysConfig) (s : RoutingState) (idx : Nat)
    (st : RStream) (dev : IoDev) (hfind : s.findDev idx = some dev)
    (hc : dev.is_open = false) :
    ∃ nc' evnc, init_device sys s idx st
      = (0, { (s.updateDev idx (fun _ =>
            { dev with is_open := true,
                       format_num_channels := some st.num_channels }))
          with nc := nc' },
         REvent.devOpened idx st.num_channels :: evnc) := by
  unfold init_device
  rw [hfind]
  dsimp only [cras_iodev_is_open]
  rw [if_neg (by rw [hc]; exact Bool.false_ne_true)]
  rcases hps : possibly_set_non_dsp_aec_echo_ref_dev_alive sys
      (s.updateDev idx (fun _ =>
        { dev with is_open := true,
                   format_num_channels := some st.num_channels }))
      { dev with is_open := true,
                 format_num_channels := some st.num_channels }
    with ⟨s3, ev3⟩
  obtain ⟨nc', ev, heq⟩ := possibly_set_shape sys
      (s.updateDev idx (fun _ =>
        { dev with is_open := true,
                   format_num_channels := some st.num_channels }))
      { dev with is_open := true,
                 format_num_channels := some st.num_channels }
  rw [hps] at heq
  injection heq with hs3 hev
  exact ⟨nc', ev3, by rw [hs3]; simp⟩

/-- Attaching a stream to a single open device records its id there. -/
theorem add_stream_one (s : RoutingState) (st : RStream) (idx : Nat) :
    add_stream_to_open_devs s st [idx]
      = (0, s.updateDev idx
            (fun d => { d with attached := d.attached ++ [st.id] }),
         [REvent.streamAttached st.id [idx]]) := by
  unfold add_stream_to_open_devs
  rfl

/-- Updating one device leaves lookups of other indices unchanged. -/
theorem findDev_updateDev_ne (s : RoutingState) (idx j : Nat)
    (f : IoDev → IoDev) (hf : ∀ d, d.idx = idx → (f d).idx = idx)
    (hne : j ≠ idx) :
    (s.updateDev idx f).findDev j = s.findDev j := by
  rw [findDev_updateDev s idx j f hf]
  cases h : s.findDev j with
  | none => rfl
  | some dj =>
    have hdj := findDev_idx h
    rw [Option.map_some']
    rw [if_neg (by rw [hdj]; exact hne)]

/-- Updating a device rewrites its own lookup. -/
theorem findDev_updateDev_self (s : RoutingState) (idx : Nat)
    (f : IoDev → IoDev) (dev : IoDev)
    (hf : ∀ d, d.idx = idx → (f d).idx = idx)
    (hfind : s.findDev idx = some dev) :
    (s.updateDev idx f).findDev idx = some (f dev) := by
  rw [findDev_updateDev s idx idx f hf, hfind]
  have hd := findDev_idx hfind
  simp [hd]

/-- Running the attach loop of `init_and_attach_streams` from a state where
the device exists: the loop returns 0, changes only the device's entry and
the `nc` field, opens the device with the first attachable stream's channel
count when it was closed, and appends every attachable stream's id to the
device's attach list, in stream-list order. -/
theorem iasGo_run (sys : SysConfig) (dir : Direction) (idx : Nat) (de : Bool) :
    ∀ (streams : List RStream) (s : RoutingState) (dev : IoDev),
      s.findDev idx = some dev →
      ∃ s' ev,
        iasGo sys dir idx de streams s = (0, s', ev) ∧
        (∀ j, j ≠ idx → s'.findDev j = s.findDev j) ∧
        (∀ d', s'.enabledList d' = s.enabledList d') ∧
        s'.streams = s.streams ∧
        s'.floop_outputs = s.floop_outputs ∧
        s'.stream_list_suspended = s.stream_list_suspended ∧
        s'.hotword_suspended = s.hotword_suspended ∧
        (∃ dev', s'.findDev idx = some dev' ∧
          dev'.idx = dev.idx ∧ dev'.direction = dev.direction ∧
          (streams.filter (can_attach dir idx de) = [] → dev' = dev) ∧
          (∀ fst tl, streams.filter (can_attach dir idx de) = fst :: tl →
            dev'.is_open = true ∧
            dev'.format_num_channels
              = (if dev.is_open then dev.format_num_channels
                 else some fst.num_channels) ∧
            dev'.attached = dev.attached
              ++ (streams.filter (can_attach dir idx de)).map
                  (fun st => st.id))) ∧
        (∀ fst tl, streams.filter (can_attach dir idx de) = fst :: tl →
          dev.is_open = false →
          REvent.devOpened idx fst.num_channels ∈ ev) := by
  intro streams
  induction streams with
  | nil =>
    intro s dev hfind
    exact ⟨s, [], rfl, fun j _ => rfl, fun d' => rfl, rfl, rfl, rfl, rfl,
      ⟨dev, hfind, rfl, rfl, fun _ => rfl, fun fst tl h => List.noConfusion h⟩,
      fun fst tl h _ => List.noConfusion h⟩
  | cons st rest ih =>
    intro s dev hfind
    have hdidx := findDev_idx hfind
    by_cases hca : can_attach dir idx de st = true
    · have hfilter : (st :: rest).filter (can_attach dir idx de)
          = st :: rest.filter (can_attach dir idx de) :=
        List.filter_cons_of_pos hca
      by_cases hop : dev.is_open = true
      · -- device already open: init is a no-op, the stream is recorded
        have hg : ∀ d : IoDev, d.idx = idx →
            ({ d with attached := d.attached ++ [st.id] } : IoDev).idx
              = idx := fun d hd => hd
        have hfind3 : (s.updateDev idx
              (fun d => { d with attached := d.attached ++ [st.id] })).findDev
              idx
            = some { dev with attached := dev.attached ++ [st.id] } :=
          findDev_updateDev_self s idx _ dev hg hfind
        obtain ⟨s', ev, heq, hj, hen, hst, hfl, hsu, hhw,
            ⟨dev', hfd, hdidx2, hddir, hempty, hcons⟩, hev⟩ :=
          ih (s.updateDev idx
            (fun d => { d with attached := d.attached ++ [st.id] }))
            { dev with attached := dev.attached ++ [st.id] } hfind3
        refine ⟨s', [REvent.streamAttached st.id [idx]] ++ ev, ?_, ?_, ?_,
          ?_, ?_, ?_, ?_, ⟨dev', hfd, hdidx2, hddir, ?_, ?_⟩, ?_⟩
        · simp only [iasGo, if_pos hca]
          rw [init_device_open sys s idx st dev hfind hop, add_stream_one,
            heq]
          rfl
        · intro j hne
          rw [hj j hne, findDev_updateDev_ne s idx j _ hg hne]
        · intro d'
          rw [hen d', enabledList_updateDev]
        · rw [hst]; rfl
        · rw [hfl]; rfl
        · rw [hsu]; rfl
        · rw [hhw]; rfl
        · intro h
          rw [hfilter] at h
          simp at h
        · intro fst tl h
          rw [hfilter] at h
          injection h with h1 h2
          subst h1
          cases hrest : rest.filter (can_attach dir idx de) with
          | nil =>
            have hde := hempty hrest
            subst hde
            refine ⟨hop, ?_, ?_⟩
            · rw [if_pos hop]
            · rw [hfilter, hrest]
              simp
          | cons f2 tl2 =>
            obtain ⟨ho2, hf2, ha2⟩ := hcons f2 tl2 hrest
            refine ⟨ho2, ?_, ?_⟩
            · rw [if_pos hop, hf2]
              simp [hop]
            · rw [ha2, hfilter]
              simp
        · intro fst tl h hfalse
          rw [hop] at hfalse
          exact absurd hfalse (by simp)
      · -- device closed: init opens it with this stream's channel count
        have hopf : dev.is_open = false := by
          cases h : dev.is_open
          · rfl
          · exact absurd h hop
        obtain ⟨nc', evnc, hinit⟩ :=
          init_device_closed sys s idx st dev hfind hopf
        have hdev2idx : ∀ d : IoDev, d.idx = idx →
            ({ dev with is_open := true,
                        format_num_channels := some st.num_channels }
              : IoDev).idx = idx := fun d _ => hdidx
        have hg : ∀ d : IoDev, d.idx = idx →
            ({ d with attached := d.attached ++ [st.id] } : IoDev).idx
              = idx := fun d hd => hd
        have hfind2 : ({ (s.updateDev idx (fun _ =>
              { dev with is_open := true,
                         format_num_channels := some st.num_channels }))
            with nc := nc' } : RoutingState).findDev idx
            = some { dev with is_open := true,
                              format_num_channels := some st.num_channels } :=
          findDev_updateDev_self s idx _ dev hdev2idx hfind
        have hfind3 : (({ (s.updateDev idx (fun _ =>
              { dev with is_open := true,
                         format_num_channels := some st.num_channels }))
            with nc := nc' } : RoutingState).updateDev idx
              (fun d => { d with attached := d.attached ++ [st.id] })).findDev
              idx
            = some { dev with is_open := true,
                              format_num_channels := some st.num_channels,
                              attached := dev.attached ++ [st.id] } :=
          findDev_updateDev_self _ idx _ _ hg hfind2
        obtain ⟨s', ev, heq, hj, hen, hst, hfl, hsu, hhw,
            ⟨dev', hfd, hdidx2, hddir, hempty, hcons⟩, hev⟩ :=
          ih _ _ hfind3
        refine ⟨s', (REvent.devOpened idx st.num_channels :: evnc)
            ++ [REvent.streamAttached st.id [idx]] ++ ev, ?_, ?_, ?_,
          ?_, ?_, ?_, ?_, ⟨dev', hfd, hdidx2, hddir, ?_, ?_⟩, ?_⟩
        · simp only [iasGo, if_pos hca]
          rw [hinit, add_stream_one, heq]
        · intro j hne
          rw [hj j hne, findDev_updateDev_ne _ idx j _ hg hne]
          show (s.updateDev idx _).findDev j = s.findDev j
          rw [findDev_updateDev_ne s idx j _ hdev2idx hne]
        · intro d'
          rw [hen d', enabledList_updateDev]
          rw [show ({ (s.updateDev idx (fun _ =>
              { dev with is_open := true,
                         format_num_channels := some st.num_channels }))
            with nc := nc' } : RoutingState).enabledList d'
              = (s.updateDev idx (fun _ =>
              { dev with is_open := true,
                         format_num_channels := some st.num_channels
              })).enabledList d' from enabledList_setNc _ nc' d',
            enabledList_updateDev]
        · rw [hst]; rfl
        · rw [hfl]; rfl
        · rw [hsu]; rfl
        · rw [hhw]; rfl
        · intro h
          rw [hfilter] at h
          simp at h
        · intro fst tl h
          rw [hfilter] at h
          injection h with h1 h2
          subst h1
          cases hrest : rest.filter (can_attach dir idx de) with
          | nil =>
            have hde := hempty hrest
            subst hde
            refine ⟨rfl, ?_, ?_⟩
            · rw [if_neg (by rw [hopf]; simp)]
            · rw [hfilter, hrest]
              simp
          | cons f2 tl2 =>
            obtain ⟨ho2, hf2, ha2⟩ := hcons f2 tl2 hrest
            refine ⟨ho2, ?_, ?_⟩
            · rw [if_neg (by rw [hopf]; simp), hf2]
              simp
            · rw [ha2, hfilter]
              simp
        · intro fst tl h _
          rw [hfilter] at h
          injection h with h1 h2
          subst h1
          simp
    · have hfilter : (st :: rest).filter (can_attach dir idx de)
          = rest.filter (can_attach dir idx de) :=
        List.filter_cons_of_neg (by simpa using hca)
      obtain ⟨s', ev, heq, hj, hen, hst, hfl, hsu, hhw, hdev, hev⟩ :=
        ih s dev hfind
      refine ⟨s', ev, ?_, hj, hen, hst, hfl, hsu, hhw, ?_, ?_⟩
      · simp only [iasGo, if_neg hca]
        exact heq
      · rw [hfilter]
        exact hdev
      · rw [hfilter]
        exact hev

/-- Setting an enabled list: the same direction class reads the new list,
the other class is untouched. -/
theorem enabledList_setEnabledList (s : RoutingState) (d : Direction)
    (l : List Nat) (d' : Direction) :
    (s.setEnabledList d l).enabledList d'
      = if (d = Direction.OUTPUT ↔ d' = Direction.OUTPUT) then l
        else s.enabledList d' := by
  cases d <;> cases d' <;> simp <;> rfl

/-- Enabling a device that is not in the registry is a no-op returning 0. -/
theorem enable_device_none (sys : SysConfig) (s : RoutingState) (idx : Nat)
    (hf : s.findDev idx = none) :
    enable_device sys s idx = (0, s, []) := by
  unfold enable_device
  rw [hf]

/-- Enabling a device already on its direction's enabled list fails with
`-EEXIST` and changes nothing. -/
theorem enable_device_mem (sys : SysConfig) (s : RoutingState) (idx : Nat)
    (dev : IoDev) (hfind : s.findDev idx = some dev)
    (hmem : idx ∈ s.enabledList dev.direction) :
    enable_device sys s idx = (-EEXIST, s, []) := by
  unfold enable_device
  rw [hfind]
  dsimp only
  rw [if_pos hmem]

/-- `init_and_attach_streams` always returns 0 in the model, touches only
the device's entry and the `nc` field, and preserves the device's index
and direction. -/
theorem init_and_attach_pres (sys : SysConfig) (s : RoutingState) (idx : Nat) :
    ∃ s' ev, init_and_attach_streams sys s idx = (0, s', ev) ∧
      (∀ j, j ≠ idx → s'.findDev j = s.findDev j) ∧
      (∀ d', s'.enabledList d' = s.enabledList d') ∧
      s'.streams = s.streams ∧ s'.floop_outputs = s.floop_outputs ∧
      s'.stream_list_suspended = s.stream_list_suspended ∧
      s'.hotword_suspended = s.hotword_suspended ∧
      (∀ dev, s.findDev idx = some dev → ∃ dev',
        s'.findDev idx = some dev' ∧ dev'.idx = dev.idx ∧
        dev'.direction = dev.direction) := by
  unfold init_and_attach_streams
  cases hf : s.findDev idx with
  | none =>
    exact ⟨s, [], rfl, fun _ _ => rfl, fun _ => rfl, rfl, rfl, rfl, rfl,
      fun dev hdev => Option.noConfusion hdev⟩
  | some dev =>
    dsimp only
    by_cases hsusp : s.stream_list_suspended = true
    · rw [if_pos hsusp]
      exact ⟨s, [], rfl, fun _ _ => rfl, fun _ => rfl, rfl, rfl, rfl, rfl,
        fun dev2 hdev2 => ⟨dev2, hf.trans hdev2, rfl, rfl⟩⟩
    · rw [if_neg hsusp]
      obtain ⟨s', ev, heq, hj, hen, hst, hfl, hsu, hhw,
          ⟨dev', hfd, hdidx, hddir, _, _⟩, _⟩ :=
        iasGo_run sys dev.direction idx (cras_iodev_list_dev_is_enabled s dev)
          s.streams s dev hf
      refine ⟨s', ev, heq, hj, hen, hst, hfl, hsu, hhw, ?_⟩
      intro dev2 hdev2
      injection hdev2 with hd
      subst hd
      exact ⟨dev', hfd, hdidx, hddir⟩

/-- Enabling an absent-from-the-list device appends it to its direction's
enabled list, marks it enabled, attaches the active streams and returns 0;
its first event is the enable event. -/
theorem enable_device_run (sys : SysConfig) (s : RoutingState) (idx : Nat)
    (dev : IoDev) (hfind : s.findDev idx = some dev)
    (hni : idx ∉ s.enabledList dev.direction) :
    ∃ s' ev',
      enable_device sys s idx = (0, s', REvent.devEnabled idx :: ev') ∧
      (∀ j, j ≠ idx → s'.findDev j = s.findDev j) ∧
      (∀ d', s'.enabledList d'
        = (s.setEnabledList dev.direction
            (s.enabledList dev.direction ++ [idx])).enabledList d') ∧
      s'.streams = s.streams ∧ s'.floop_outputs = s.floop_outputs ∧
      s'.stream_list_suspended = s.stream_list_suspended ∧
      s'.hotword_suspended = s.hotword_suspended ∧
      (∃ devE, s'.findDev idx = some devE ∧
        devE.direction = dev.direction) := by
  unfold enable_device
  rw [hfind]
  dsimp only
  rw [if_neg hni]
  have hdidx := findDev_idx hfind
  have hgen : ∀ d : IoDev, d.idx = idx →
      ({ d with is_enabled := true } : IoDev).idx = idx := fun d hd => hd
  have hfind2 : ((s.setEnabledList dev.direction
        (s.enabledList dev.direction ++ [idx])).updateDev idx
        (fun d => { d with is_enabled := true })).findDev idx
      = some { dev with is_enabled := true } := by
    rw [findDev_updateDev_self _ idx _ dev hgen
      (by rw [findDev_setEnabledList]; exact hfind)]
  obtain ⟨s3, ev, hia, hj3, hen3, hst3, hfl3, hsu3, hhw3, hdev3⟩ :=
    init_and_attach_pres sys
      ((s.setEnabledList dev.direction
        (s.enabledList dev.direction ++ [idx])).updateDev idx
        (fun d => { d with is_enabled := true })) idx
  rw [hia]
  dsimp only
  rw [if_neg (by norm_num)]
  obtain ⟨devE, hfdE, hEidx, hEdir⟩ :=
    hdev3 { dev with is_enabled := true } hfind2
  rw [hfdE]
  rcases hps : possibly_set_non_dsp_aec_echo_ref_dev_alive sys s3 devE
    with ⟨s4, ev4⟩
  obtain ⟨nc', evps, heq⟩ := possibly_set_shape sys s3 devE
  rw [hps] at heq
  injection heq with hs4 hev4
  refine ⟨s4, ev ++ ev4, by simp [hps], ?_, ?_, ?_, ?_, ?_, ?_, ?_⟩
  · intro j hne
    rw [hs4]
    show s3.findDev j = s.findDev j
    rw [hj3 j hne, findDev_updateDev_ne _ idx j _ hgen hne,
      findDev_setEnabledList]
  · intro d'
    rw [hs4]
    show s3.enabledList d' = _
    rw [hen3 d', enabledList_updateDev]
  · rw [hs4]
    show s3.streams = s.streams
    rw [hst3, streams_updateDev, streams_setEnabledList]
  · rw [hs4]
    show s3.floop_outputs = s.floop_outputs
    rw [hfl3, floop_updateDev, floop_setEnabledList]
  · rw [hs4]
    show s3.stream_list_suspended = s.stream_list_suspended
    rw [hsu3, susp_updateDev, susp_setEnabledList]
  · rw [hs4]
    show s3.hotword_suspended = s.hotword_suspended
    rw [hhw3, hotword_updateDev, hotword_setEnabledList]
  · refine ⟨devE, ?_, hEdir⟩
    rw [hs4]
    show s3.findDev idx = some devE
    exact hfdE

/-- Closing a device that is not open changes nothing. -/
theorem close_dev_closed (sys : SysConfig) (s : RoutingState) (idx : Nat)
    (dev : IoDev) (hfind : s.findDev idx = some dev)
    (hc : dev.is_open = false) :
    close_dev sys s idx = (s, []) := by
  unfold close_dev
  rw [hfind]
  dsimp only [cras_iodev_is_open]
  rw [if_pos (by rw [hc]; exact Bool.false_ne_true)]

/-- Closing an open device detaches its streams, clears its format, and
re-evaluates the NC flag (which only touches the `nc` field). -/
theorem close_dev_open (sys : SysConfig) (s : RoutingState) (idx : Nat)
    (dev : IoDev) (hfind : s.findDev idx = some dev)
    (ho : dev.is_open = true) :
    ∃ nc' ev, close_dev sys s idx
      = ({ (s.updateDev idx (fun d =>
            { d with attached := [], is_open := false,
                     format_num_channels := none }))
          with nc := nc' },
         REvent.streamsRemoved idx :: REvent.devClosed idx :: ev) := by
  unfold close_dev
  rw [hfind]
  dsimp only [cras_iodev_is_open]
  rw [if_neg (by rw [ho]; simp)]
  rcases hps : possibly_clear_non_dsp_aec_echo_ref_dev_alive sys
      (s.updateDev idx (fun d =>
        { d with attached := [], is_open := false,
                 format_num_channels := none }))
    with ⟨s3, ev3⟩
  obtain ⟨nc', evps, heq⟩ := possibly_clear_shape sys
      (s.updateDev idx (fun d =>
        { d with attached := [], is_open := false,
                 format_num_channels := none }))
  rw [hps] at heq
  injection heq with hs3 hev3
  exact ⟨nc', ev3, by rw [hs3]; simp⟩

/-- Disabling an enabled device with no pinned stream on it: the entry is
erased from the enabled list, `is_enabled` is cleared, the device is closed
and only the device's entry and the `nc` field change; the first event is
the disable event. -/
theorem disable_device_run (sys : SysConfig) (s : RoutingState) (idx : Nat)
    (dev : IoDev) (hfind : s.findDev idx = some dev)
    (hnp : stream_list_has_pinned_stream s idx = false) :
    ∃ s' ev',
      disable_device sys s idx false = (s', REvent.devDisabled idx :: ev') ∧
      (∀ j, j ≠ idx → s'.findDev j = s.findDev j) ∧
      (∀ d', s'.enabledList d'
        = (s.setEnabledList dev.direction
            ((s.enabledList dev.direction).erase idx)).enabledList d') ∧
      s'.streams = s.streams ∧ s'.floop_outputs = s.floop_outputs ∧
      s'.stream_list_suspended = s.stream_list_suspended ∧
      s'.hotword_suspended = s.hotword_suspended := by
  unfold disable_device
  rw [hfind]
  dsimp only
  rw [if_neg (by simp)]
  have hgen : ∀ d : IoDev, d.idx = idx →
      ({ d with is_enabled := false } : IoDev).idx = idx := fun d hd => hd
  have hfind2 : ((s.setEnabledList dev.direction
        ((s.enabledList dev.direction).erase idx)).updateDev idx
        (fun d => { d with is_enabled := false })).findDev idx
      = some { dev with is_enabled := false } := by
    rw [findDev_updateDev_self _ idx _ dev hgen
      (by rw [findDev_setEnabledList]; exact hfind)]
  have hnp2 : stream_list_has_pinned_stream
      ((s.setEnabledList dev.direction
        ((s.enabledList dev.direction).erase idx)).updateDev idx
        (fun d => { d with is_enabled := false })) idx = false := by
    unfold stream_list_has_pinned_stream at hnp ⊢
    rw [show ((s.setEnabledList dev.direction
        ((s.enabledList dev.direction).erase idx)).updateDev idx
        (fun d => { d with is_enabled := false })).streams = s.streams
      from by rw [streams_updateDev, streams_setEnabledList]]
    exact hnp
  rw [if_neg (by rw [hnp2]; exact Bool.false_ne_true)]
  by_cases hop : dev.is_open = true
  · obtain ⟨nc', evc, hclose⟩ := close_dev_open sys _ idx
      { dev with is_enabled := false } hfind2 hop
    rw [hclose]
    dsimp only
    rcases hps : possibly_clear_non_dsp_aec_echo_ref_dev_alive sys
        ({ ((s.setEnabledList dev.direction
          ((s.enabledList dev.direction).erase idx)).updateDev idx
          (fun d => { d with is_enabled := false })).updateDev idx
            (fun d => { d with attached := [], is_open := false,
                               format_num_channels := none })
          with nc := nc' } : RoutingState)
      with ⟨s4, ev4⟩
    obtain ⟨nc2, evps, heq⟩ := possibly_clear_shape sys
        ({ ((s.setEnabledList dev.direction
          ((s.enabledList dev.direction).erase idx)).updateDev idx
          (fun d => { d with is_enabled := false })).updateDev idx
            (fun d => { d with attached := [], is_open := false,
                               format_num_channels := none })
          with nc := nc' } : RoutingState)
    rw [hps] at heq
    injection heq with hs4 hev4
    refine ⟨s4, (REvent.streamsRemoved idx :: REvent.devClosed idx :: evc)
        ++ [REvent.updateActiveNode idx 0] ++ ev4, by simp, ?_, ?_, ?_, ?_,
      ?_, ?_⟩
    · intro j hne
      rw [hs4, findDev_setNc, findDev_setNc,
        findDev_updateDev_ne _ idx j
          (fun d => { d with attached := [], is_open := false,
                             format_num_channels := none })
          (fun d hd => hd) hne,
        findDev_updateDev_ne _ idx j _ hgen hne, findDev_setEnabledList]
    · intro d'
      rw [hs4, enabledList_setNc, enabledList_setNc, enabledList_updateDev,
        enabledList_updateDev]
    · rw [hs4, streams_setNc, streams_setNc, streams_updateDev,
        streams_updateDev, streams_setEnabledList]
    · rw [hs4, floop_setNc, floop_setNc, floop_updateDev, floop_updateDev,
        floop_setEnabledList]
    · rw [hs4, susp_setNc, susp_setNc, susp_updateDev, susp_updateDev,
        susp_setEnabledList]
    · rw [hs4, hotword_setNc, hotword_setNc, hotword_updateDev,
        hotword_updateDev, hotword_setEnabledList]
  · have hopf : dev.is_open = false := by
      cases h : dev.is_open
      · rfl
      · exact absurd h hop
    rw [close_dev_closed sys _ idx { dev with is_enabled := false } hfind2
      hopf]
    dsimp only
    rcases hps : possibly_clear_non_dsp_aec_echo_ref_dev_alive sys
        ((s.setEnabledList dev.direction
          ((s.enabledList dev.direction).erase idx)).updateDev idx
          (fun d => { d with is_enabled := false }))
      with ⟨s4, ev4⟩
    obtain ⟨nc2, evps, heq⟩ := possibly_clear_shape sys
        ((s.setEnabledList dev.direction
          ((s.enabledList dev.direction).erase idx)).updateDev idx
          (fun d => { d with is_enabled := false }))
    rw [hps] at heq
    injection heq with hs4 hev4
    refine ⟨s4, [] ++ [REvent.updateActiveNode idx 0] ++ ev4, by simp, ?_,
      ?_, ?_, ?_, ?_, ?_⟩
    · intro j hne
      rw [hs4, findDev_setNc,
        findDev_updateDev_ne _ idx j _ hgen hne, findDev_setEnabledList]
    · intro d'
      rw [hs4, enabledList_setNc, enabledList_updateDev]
    · rw [hs4, streams_setNc, streams_updateDev, streams_setEnabledList]
    · rw [hs4, floop_setNc, floop_updateDev, floop_setEnabledList]
    · rw [hs4, susp_setNc, susp_updateDev, susp_setEnabledList]
    · rw [hs4, hotword_setNc, hotword_updateDev, hotword_setEnabledList]

/-- Restarting an open, enabled device with at least one attachable stream:
the device is closed and then re-opened with the first attachable stream's
channel count, every attachable stream is re-attached, the events contain
the close followed later by the open, and nothing else changes (besides the
`nc` field). -/
theorem restart_dev_run (sys : SysConfig) (s : RoutingState) (idx : Nat)
    (dev : IoDev) (fst : RStream) (ftl : List RStream)
    (hfind : s.findDev idx = some dev) (ho : dev.is_open = true)
    (hsusp : s.stream_list_suspended = false)
    (hmem : idx ∈ s.enabledList dev.direction)
    (hfilter : s.streams.filter (can_attach dev.direction idx true)
      = fst :: ftl) :
    ∃ s' evA evB,
      restart_dev sys s idx
        = (s', (REvent.streamsRemoved idx :: REvent.devClosed idx :: evA)
            ++ evB) ∧
      REvent.devOpened idx fst.num_channels ∈ evB ∧
      (∀ j, j ≠ idx → s'.findDev j = s.findDev j) ∧
      (∀ d', s'.enabledList d' = s.enabledList d') ∧
      s'.streams = s.streams ∧ s'.floop_outputs = s.floop_outputs ∧
      s'.stream_list_suspended = s.stream_list_suspended ∧
      s'.hotword_suspended = s.hotword_suspended ∧
      (∃ dev', s'.findDev idx = some dev' ∧ dev'.idx = dev.idx ∧
        dev'.direction = dev.direction ∧ dev'.is_open = true ∧
        dev'.format_num_channels = some fst.num_channels ∧
        dev'.attached = (s.streams.filter
          (can_attach dev.direction idx true)).map (fun st => st.id)) := by
  have hdidx := findDev_idx hfind
  unfold restart_dev
  rw [hfind]
  dsimp only
  obtain ⟨ncC, evC, hclose⟩ := close_dev_open sys s idx dev hfind ho
  rw [hclose]
  dsimp only
  have hfindC : ({ (s.updateDev idx (fun d =>
        { d with attached := [], is_open := false,
                 format_num_channels := none }))
      with nc := ncC } : RoutingState).findDev idx
      = some { dev with attached := [], is_open := false,
                        format_num_channels := none } := by
    rw [findDev_setNc,
      findDev_updateDev_self s idx
        (fun d => { d with attached := [], is_open := false,
                           format_num_channels := none })
        dev (fun d hd => hd) hfind]
  have hsuspC : ({ (s.updateDev idx (fun d =>
        { d with attached := [], is_open := false,
                 format_num_channels := none }))
      with nc := ncC } : RoutingState).stream_list_suspended = false := by
    rw [susp_setNc, susp_updateDev]
    exact hsusp
  have hstreamsC : ({ (s.updateDev idx (fun d =>
        { d with attached := [], is_open := false,
                 format_num_channels := none }))
      with nc := ncC } : RoutingState).streams = s.streams := by
    rw [streams_setNc, streams_updateDev]
  have hde : cras_iodev_list_dev_is_enabled
      ({ (s.updateDev idx (fun d =>
        { d with attached := [], is_open := false,
                 format_num_channels := none }))
      with nc := ncC } : RoutingState)
      { dev with attached := [], is_open := false,
                 format_num_channels := none } = true := by
    unfold cras_iodev_list_dev_is_enabled
    have hm : ({ dev with attached := [], is_open := false,
                           format_num_channels := none } : IoDev).idx
        ∈ ({ (s.updateDev idx (fun d =>
            { d with attached := [], is_open := false,
                     format_num_channels := none }))
          with nc := ncC } : RoutingState).enabledList
          ({ dev with attached := [], is_open := false,
                      format_num_channels := none } : IoDev).direction := by
      show dev.idx ∈ _
      rw [hdidx, enabledList_setNc, enabledList_updateDev]
      exact hmem
    exact decide_eq_true hm
  have hia : init_and_attach_streams sys
      ({ (s.updateDev idx (fun d =>
        { d with attached := [], is_open := false,
                 format_num_channels := none }))
      with nc := ncC } : RoutingState) idx
      = iasGo sys dev.direction idx true s.streams
        ({ (s.updateDev idx (fun d =>
          { d with attached := [], is_open := false,
                   format_num_channels := none }))
        with nc := ncC } : RoutingState) := by
    unfold init_and_attach_streams
    rw [hfindC]
    dsimp only
    rw [if_neg (by rw [hsuspC]; exact Bool.false_ne_true), hde, hstreamsC]
  rw [hia]
  obtain ⟨s', ev, heq, hj, hen, hst, hfl, hsu, hhw,
      ⟨dev', hfd, hdidx2, hddir, hempty, hcons⟩, hev⟩ :=
    iasGo_run sys dev.direction idx true s.streams
      ({ (s.updateDev idx (fun d =>
        { d with attached := [], is_open := false,
                 format_num_channels := none }))
      with nc := ncC } : RoutingState)
      { dev with attached := [], is_open := false,
                 format_num_channels := none } hfindC
  rw [heq]
  obtain ⟨hio, hifmt, hiatt⟩ := hcons fst ftl hfilter
  refine ⟨s', evC ++ [REvent.updateActiveNode idx 0,
      REvent.updateActiveNode idx 1], ev, ?_, ?_, ?_, ?_, ?_, ?_, ?_, ?_, ?_⟩
  · simp
  · exact hev fst ftl hfilter rfl
  · intro j hne
    rw [hj j hne, findDev_setNc, findDev_updateDev_ne _ idx j
      (fun d => { d with attached := [], is_open := false,
                         format_num_channels := none })
      (fun d hd => hd) hne]
  · intro d'
    rw [hen d', enabledList_setNc, enabledList_updateDev]
  · rw [hst, hstreamsC]
  · rw [hfl, floop_setNc, floop_updateDev]
  · rw [hsu, hsuspC, hsusp]
  · rw [hhw, hotword_setNc, hotword_updateDev]
  · exact ⟨dev', hfd, hdidx2, hddir, hio, hifmt, by rw [hiatt]; simp⟩

/-- Enabled lists only depend on the direction class (output vs. the
rest). -/
theorem enabledList_class (s : RoutingState) (d1 d2 : Direction)
    (h : d1 = Direction.OUTPUT ↔ d2 = Direction.OUTPUT) :
    s.enabledList d1 = s.enabledList d2 := by
  cases d1 <;> cases d2 <;> first | rfl | simp at h

/-- C10: enabling a device that is already on the enabled list of its
direction fails with `-EEXIST` and leaves the entire routing state — the
enabled lists, the device's `is_enabled` flag and its open/close state —
unchanged; moreover `enable_device` preserves duplicate-freedom of every
enabled list, so no device ever appears twice in an enabled list. -/
theorem enable_device_eexist_spec (sys : SysConfig) (s : RoutingState)
    (idx : Nat) (dev : IoDev) (hfind : s.findDev idx = some dev)
    (hmem : idx ∈ s.enabledList dev.direction) :
    enable_device sys s idx = (-EEXIST, s, []) ∧
    (∀ (sys2 : SysConfig) (s2 : RoutingState) (j : Nat) (d' : Direction),
      (s2.enabledList d').Nodup →
      ((enable_device sys2 s2 j).2.1.enabledList d').Nodup) := by
  refine ⟨enable_device_mem sys s idx dev hfind hmem, ?_⟩
  intro sys2 s2 j d' hnd
  cases hf : s2.findDev j with
  | none => rw [enable_device_none sys2 s2 j hf]; exact hnd
  | some dev2 =>
    by_cases hm : j ∈ s2.enabledList dev2.direction
    · rw [enable_device_mem sys2 s2 j dev2 hf hm]; exact hnd
    · obtain ⟨s', ev', heq, _, hen, _, _, _, _, _⟩ :=
        enable_device_run sys2 s2 j dev2 hf hm
      rw [heq]
      dsimp only
      rw [hen d', enabledList_setEnabledList]
      by_cases hiff : (dev2.direction = Direction.OUTPUT
          ↔ d' = Direction.OUTPUT)
      · rw [if_pos hiff]
        have hlist : s2.enabledList d' = s2.enabledList dev2.direction :=
          enabledList_class s2 d' dev2.direction (Iff.comm.mp hiff)
        rw [hlist] at hnd
        refine List.Nodup.append hnd (by simp) ?_
        intro a ha hb
        rw [List.mem_singleton] at hb
        subst hb
        exact hm ha
      · rw [if_neg hiff]
        exact hnd

/-- C10 witness: re-enabling the already-enabled device of `exState`. -/
theorem enable_device_eexist_witness :
    exState.findDev 5 = some exDev ∧
    (5 : Nat) ∈ exState.enabledList exDev.direction ∧
    enable_device exSys exState 5 = (-EEXIST, exState, []) :=
  ⟨by decide, by decide,
   (enable_device_eexist_spec exSys exState 5 exDev (by decide)
     (by decide)).1⟩

/-- A member of a list splits it at its first occurrence. -/
theorem mem_split_first {α : Type} [DecidableEq α] (a : α) :
    ∀ (l : List α), a ∈ l → ∃ l1 l2, l = l1 ++ a :: l2 ∧ a ∉ l1 := by
  intro l
  induction l with
  | nil => intro h; exact absurd h (List.not_mem_nil a)
  | cons x xs ih =>
    intro h
    by_cases hx : a = x
    · subst hx
      exact ⟨[], xs, rfl, List.not_mem_nil a⟩
    · have hmem : a ∈ xs := by
        rcases List.mem_cons.mp h with h1 | h2
        · exact absurd h1 hx
        · exact h2
      obtain ⟨l1, l2, heq, hni⟩ := ih hmem
      refine ⟨x :: l1, l2, by rw [heq]; rfl, ?_⟩
      intro hc
      rcases List.mem_cons.mp hc with h1 | h2
      · exact hx h1
      · exact hni h2

/-- `close_dev` on any state: only the device's entry and the `nc` field
change. -/
theorem close_dev_pres (sys : SysConfig) (s : RoutingState) (idx : Nat) :
    ∃ s' ev, close_dev sys s idx = (s', ev) ∧
      (∀ j, j ≠ idx → s'.findDev j = s.findDev j) ∧
      (∀ d', s'.enabledList d' = s.enabledList d') ∧
      s'.streams = s.streams ∧ s'.floop_outputs = s.floop_outputs ∧
      s'.stream_list_suspended = s.stream_list_suspended := by
  unfold close_dev
  cases hf : s.findDev idx with
  | none => exact ⟨s, [], rfl, fun _ _ => rfl, fun _ => rfl, rfl, rfl, rfl⟩
  | some dev =>
    dsimp only
    by_cases ho : cras_iodev_is_open dev = true
    · rw [if_neg (by rw [ho]; simp)]
      rcases hps : possibly_clear_non_dsp_aec_echo_ref_dev_alive sys
          (s.updateDev idx (fun d =>
            { d with attached := [], is_open := false,
                     format_num_channels := none }))
        with ⟨s3, ev3⟩
      obtain ⟨nc', evps, heq⟩ := possibly_clear_shape sys
          (s.updateDev idx (fun d =>
            { d with attached := [], is_open := false,
                     format_num_channels := none }))
      rw [hps] at heq
      injection heq with hs3 hev
      refine ⟨s3, _, rfl, ?_, ?_, ?_, ?_, ?_⟩
      · intro j hne
        rw [hs3, findDev_setNc, findDev_updateDev_ne s idx j
          (fun d => { d with attached := [], is_open := false,
                             format_num_channels := none })
          (fun d hd => hd) hne]
      · intro d'
        rw [hs3, enabledList_setNc, enabledList_updateDev]
      · rw [hs3, streams_setNc, streams_updateDev]
      · rw [hs3, floop_setNc, floop_updateDev]
      · rw [hs3, susp_setNc, susp_updateDev]
    · rw [if_pos ho]
      exact ⟨s, [], rfl, fun _ _ => rfl, fun _ => rfl, rfl, rfl, rfl⟩

/-- `init_device` on any state returns 0 and only touches the device's
entry and the `nc` field. -/
theorem init_device_pres (sys : SysConfig) (s : RoutingState) (idx : Nat)
    (st : RStream) :
    ∃ s' ev, init_device sys s idx st = (0, s', ev) ∧
      (∀ j, j ≠ idx → s'.findDev j = s.findDev j) ∧
      (∀ d', s'.enabledList d' = s.enabledList d') ∧
      s'.streams = s.streams ∧ s'.floop_outputs = s.floop_outputs ∧
      s'.stream_list_suspended = s.stream_list_suspended ∧
      (∀ dev0, s.findDev idx = some dev0 → ∃ dev',
        s'.findDev idx = some dev' ∧ dev'.direction = dev0.direction) := by
  unfold init_device
  cases hf : s.findDev idx with
  | none =>
    exact ⟨s, [], rfl, fun _ _ => rfl, fun _ => rfl, rfl, rfl, rfl,
      fun dev0 h0 => Option.noConfusion h0⟩
  | some dev =>
    have hdidx := findDev_idx hf
    dsimp only
    by_cases ho : cras_iodev_is_open dev = true
    · rw [if_pos ho]
      refine ⟨s, [], rfl, fun _ _ => rfl, fun _ => rfl, rfl, rfl, rfl, ?_⟩
      intro dev0 h0
      exact ⟨dev0, hf.trans h0, rfl⟩
    · rw [if_neg ho]
      rcases hps : possibly_set_non_dsp_aec_echo_ref_dev_alive sys
          (s.updateDev idx (fun _ =>
            { dev with is_open := true,
                       format_num_channels := some st.num_channels }))
          { dev with is_open := true,
                     format_num_channels := some st.num_channels }
        with ⟨s3, ev3⟩
      obtain ⟨nc', evps, heq⟩ := possibly_set_shape sys
          (s.updateDev idx (fun _ =>
            { dev with is_open := true,
                       format_num_channels := some st.num_channels }))
          { dev with is_open := true,
                     format_num_channels := some st.num_channels }
      rw [hps] at heq
      injection heq with hs3 hev
      refine ⟨s3, _, rfl, ?_, ?_, ?_, ?_, ?_, ?_⟩
      · intro j hne
        rw [hs3, findDev_setNc, findDev_updateDev_ne s idx j
          (fun _ => { dev with is_open := true,
                               format_num_channels := some st.num_channels })
          (fun d0 _ => hdidx) hne]
      · intro d'
        rw [hs3, enabledList_setNc, enabledList_updateDev]
      · rw [hs3, streams_setNc, streams_updateDev]
      · rw [hs3, floop_setNc, floop_updateDev]
      · rw [hs3, susp_setNc, susp_updateDev]
      · intro dev0 h0
        have hdev0 : dev0 = dev := by
          injection h0 with h1
          exact h1.symm
        refine ⟨{ dev with
          is_open := true,
          format_num_channels := some st.num_channels }, ?_, ?_⟩
        · rw [hs3, findDev_setNc]
          exact findDev_updateDev_self s idx
            (fun _ => { dev with
              is_open := true,
              format_num_channels := some st.num_channels })
            dev (fun d0 _ => hdidx) hf
        · rw [hdev0]

/-- `restart_dev` on any state: only the device's entry and the `nc` field
change. -/
theorem restart_dev_pres (sys : SysConfig) (s : RoutingState) (idx : Nat) :
    ∃ s' ev, restart_dev sys s idx = (s', ev) ∧
      (∀ j, j ≠ idx → s'.findDev j = s.findDev j) ∧
      (∀ d', s'.enabledList d' = s.enabledList d') ∧
      s'.streams = s.streams ∧ s'.floop_outputs = s.floop_outputs ∧
      s'.stream_list_suspended = s.stream_list_suspended := by
  unfold restart_dev
  cases hf : s.findDev idx with
  | none => exact ⟨s, [], rfl, fun _ _ => rfl, fun _ => rfl, rfl, rfl, rfl⟩
  | some dev =>
    dsimp only
    obtain ⟨s2, evc, hclose, hjc, henc, hstc, hflc, hsuc⟩ :=
      close_dev_pres sys s idx
    rw [hclose]
    dsimp only
    obtain ⟨s3, evi, hia, hji, heni, hsti, hfli, hsui, _⟩ :=
      init_and_attach_pres sys s2 idx
    rw [hia]
    dsimp only
    refine ⟨s3, _, rfl, ?_, ?_, ?_, ?_, ?_⟩
    · intro j hne
      rw [hji j hne, hjc j hne]
    · intro d'
      rw [heni d', henc d']
    · rw [hsti, hstc]
    · rw [hfli, hflc]
    · rw [hsui, hsuc]

/-- `possibly_enable_fallback` for OUTPUT when the OUTPUT enabled list is
`e` or `e ++ [fallback]` with the fallback off `e`: afterwards the list is
`e ++ [fallback]`, only the fallback's entry (and, through the enable path,
other state the enable touches besides the tracked components) changes, and
when the fallback was not yet enabled its enable event is emitted. -/
theorem pef_run (sys : SysConfig) (t : RoutingState) (fbR : IoDev)
    (e : List Nat) (b : Bool)
    (hfbR : t.findDev (fallback_idx Direction.OUTPUT) = some fbR)
    (hfbRdir : fbR.direction = Direction.OUTPUT)
    (hshape : t.enabledList Direction.OUTPUT
      = if b then e ++ [fallback_idx Direction.OUTPUT] else e)
    (hfbe : fallback_idx Direction.OUTPUT ∉ e) :
    ∃ t' ev,
      possibly_enable_fallback sys t Direction.OUTPUT false = (t', ev) ∧
      (∀ j, j ≠ fallback_idx Direction.OUTPUT →
        t'.findDev j = t.findDev j) ∧
      t'.streams = t.streams ∧
      t'.stream_list_suspended = t.stream_list_suspended ∧
      (∃ fbR', t'.findDev (fallback_idx Direction.OUTPUT) = some fbR' ∧
        fbR'.direction = Direction.OUTPUT) ∧
      t'.enabledList Direction.OUTPUT
        = e ++ [fallback_idx Direction.OUTPUT] ∧
      (b = false →
        REvent.devEnabled (fallback_idx Direction.OUTPUT) ∈ ev) := by
  have hfbidx := findDev_idx hfbR
  have hg : ∀ dd : IoDev, dd.idx = fallback_idx Direction.OUTPUT →
      ({ dd with active_node_type := NodeType.FALLBACK_NORMAL } : IoDev).idx
        = fallback_idx Direction.OUTPUT := fun dd hd => hd
  have hfind2 : (t.updateDev (fallback_idx Direction.OUTPUT)
        (fun dd => { dd with
          active_node_type := NodeType.FALLBACK_NORMAL })).findDev
        (fallback_idx Direction.OUTPUT)
      = some { fbR with active_node_type := NodeType.FALLBACK_NORMAL } :=
    findDev_updateDev_self t _ _ fbR hg hfbR
  cases b with
  | true =>
    have hmem : fallback_idx Direction.OUTPUT
        ∈ (t.updateDev (fallback_idx Direction.OUTPUT)
          (fun dd => { dd with
            active_node_type := NodeType.FALLBACK_NORMAL })).enabledList
          Direction.OUTPUT := by
      rw [enabledList_updateDev, hshape]
      simp
    have hpef : possibly_enable_fallback sys t Direction.OUTPUT false
        = (t.updateDev (fallback_idx Direction.OUTPUT)
            (fun dd => { dd with
              active_node_type := NodeType.FALLBACK_NORMAL }), []) := by
      unfold possibly_enable_fallback
      dsimp only
      simp only [Bool.false_eq_true, if_false]
      rw [if_pos hmem]
    refine ⟨_, [], hpef, ?_, ?_, ?_, ?_, ?_, ?_⟩
    · intro j hne
      exact findDev_updateDev_ne t _ j _ hg hne
    · rw [streams_updateDev]
    · rw [susp_updateDev]
    · exact ⟨{ fbR with active_node_type := NodeType.FALLBACK_NORMAL },
        hfind2, hfbRdir⟩
    · rw [enabledList_updateDev, hshape]
      simp
    · intro hb; exact absurd hb (by simp)
  | false =>
    have hni : fallback_idx Direction.OUTPUT
        ∉ (t.updateDev (fallback_idx Direction.OUTPUT)
          (fun dd => { dd with
            active_node_type := NodeType.FALLBACK_NORMAL })).enabledList
          ({ fbR with
            active_node_type := NodeType.FALLBACK_NORMAL } : IoDev).direction
        := by
      show fallback_idx Direction.OUTPUT
          ∉ (t.updateDev (fallback_idx Direction.OUTPUT)
            (fun dd => { dd with
              active_node_type := NodeType.FALLBACK_NORMAL })).enabledList
            fbR.direction
      rw [hfbRdir, enabledList_updateDev, hshape]
      simpa using hfbe
    obtain ⟨s', ev', hen, hj, henl, hst, hfl, hsu, hhw, ⟨devE, hfdE, hEdir⟩⟩
      := enable_device_run sys
        (t.updateDev (fallback_idx Direction.OUTPUT)
          (fun dd => { dd with
            active_node_type := NodeType.FALLBACK_NORMAL }))
        (fallback_idx Direction.OUTPUT)
        { fbR with active_node_type := NodeType.FALLBACK_NORMAL }
        hfind2 hni
    have hpef : possibly_enable_fallback sys t Direction.OUTPUT false
        = (s', REvent.devEnabled (fallback_idx Direction.OUTPUT) :: ev')
        := by
      unfold possibly_enable_fallback
      dsimp only
      simp only [Bool.false_eq_true, if_false]
      rw [if_neg (by
        rw [enabledList_updateDev, hshape]
        simpa using hfbe)]
      rw [hen]
    have hEdir' : devE.direction = Direction.OUTPUT := by
      rw [hEdir]
      exact hfbRdir
    refine ⟨s', _, hpef, ?_, ?_, ?_, ⟨devE, hfdE, hEdir'⟩, ?_, ?_⟩
    · intro j hne
      rw [hj j hne, findDev_updateDev_ne t _ j _ hg hne]
    · rw [hst, streams_updateDev]
    · rw [hsu, susp_updateDev]
    · rw [henl Direction.OUTPUT]
      have hdirEq : ({ fbR with
          active_node_type := NodeType.FALLBACK_NORMAL } : IoDev).direction
          = Direction.OUTPUT := hfbRdir
      rw [hdirEq, enabledList_setEnabledList_same, enabledList_updateDev,
        hshape]
      simp
    · intro _
      exact List.mem_cons_self _ _

/-- `disable_device` on the OUTPUT fallback when the OUTPUT enabled list is
`e ++ [fallback]` with the fallback off `e`: the disable event comes first,
the OUTPUT enabled list returns to `e`, and every other device's entry is
untouched. -/
theorem disable_fallback_run (sys : SysConfig) (t : RoutingState)
    (fbR : IoDev) (e : List Nat)
    (hfbR : t.findDev (fallback_idx Direction.OUTPUT) = some fbR)
    (hfbRdir : fbR.direction = Direction.OUTPUT)
    (hshape : t.enabledList Direction.OUTPUT
      = e ++ [fallback_idx Direction.OUTPUT])
    (hfbe : fallback_idx Direction.OUTPUT ∉ e) :
    ∃ t5 ev5,
      disable_device sys t (fallback_idx Direction.OUTPUT) false
        = (t5, REvent.devDisabled (fallback_idx Direction.OUTPUT) :: ev5) ∧
      t5.enabledList Direction.OUTPUT = e ∧
      (∀ j, j ≠ fallback_idx Direction.OUTPUT →
        t5.findDev j = t.findDev j) := by
  have herase : (t.enabledList fbR.direction).erase
      (fallback_idx Direction.OUTPUT) = e := by
    rw [hfbRdir, hshape, List.erase_append_right _ hfbe]
    simp
  have hg : ∀ dd : IoDev, dd.idx = fallback_idx Direction.OUTPUT →
      ({ dd with is_enabled := false } : IoDev).idx
        = fallback_idx Direction.OUTPUT := fun dd hd => hd
  unfold disable_device
  rw [hfbR]
  dsimp only
  simp only [Bool.false_eq_true, if_false]
  by_cases hpin : stream_list_has_pinned_stream
      ((t.setEnabledList fbR.direction
        ((t.enabledList fbR.direction).erase
          (fallback_idx Direction.OUTPUT))).updateDev
        (fallback_idx Direction.OUTPUT)
        (fun dd => { dd with is_enabled := false }))
      (fallback_idx Direction.OUTPUT) = true
  · rw [if_pos hpin]
    refine ⟨_, [], rfl, ?_, ?_⟩
    · rw [enabledList_updateDev, enabledList_updateDev, herase,
        hfbRdir, enabledList_setEnabledList_same]
    · intro j hne
      refine Eq.trans (findDev_updateDev_ne _ _ _ _ (fun dd hd => hd) hne)
        ?_
      refine Eq.trans (findDev_updateDev_ne _ _ _ _ (fun dd hd => hd) hne)
        ?_
      exact findDev_setEnabledList t _ _ j
  · rw [if_neg hpin]
    obtain ⟨s3, evc, hclose, hjc, henc, hstc, hflc, hsuc⟩ :=
      close_dev_pres sys
        ((t.setEnabledList fbR.direction
          ((t.enabledList fbR.direction).erase
            (fallback_idx Direction.OUTPUT))).updateDev
          (fallback_idx Direction.OUTPUT)
          (fun dd => { dd with is_enabled := false }))
        (fallback_idx Direction.OUTPUT)
    rw [hclose]
    dsimp only
    rcases hps : possibly_clear_non_dsp_aec_echo_ref_dev_alive sys s3
      with ⟨s4, ev4⟩
    obtain ⟨nc', evps, heq⟩ := possibly_clear_shape sys s3
    rw [hps] at heq
    injection heq with hs4 hev
    refine ⟨s4, _, rfl, ?_, ?_⟩
    · rw [hs4, enabledList_setNc, henc, enabledList_updateDev, herase,
        hfbRdir, enabledList_setEnabledList_same]
    · intro j hne
      rw [hs4, findDev_setNc, hjc j hne,
        findDev_updateDev_ne _ _ j _ hg hne, findDev_setEnabledList]

/-- The enabled-device loop of `stream_added_cb` over a prefix that does
not contain the target device: the loop reaches the remaining list with the
target device's entry, the stream list and the suspend flag intact, the
fallback still resolving with OUTPUT direction, the OUTPUT enabled list
equal to the original possibly extended by the fallback — whose enable
event is then already in the emitted prefix — and the open-device
accumulator grown by at most one entry per processed index. -/
theorem saGo_prefix_run (sys : SysConfig) (r : RStream) (d : IoDev)
    (e : List Nat) (str0 : List RStream)
    (hdir : r.direction = Direction.OUTPUT)
    (hnfb : d.idx ≠ fallback_idx Direction.OUTPUT)
    (hfbe : fallback_idx Direction.OUTPUT ∉ e) :
    ∀ (L1 : List Nat), d.idx ∉ L1 →
    ∀ (rest : List Nat) (t : RoutingState) (io : List Nat) (rp : Bool)
      (b : Bool),
      io.length + L1.length < NUM_OPEN_DEVS_MAX →
      t.findDev d.idx = some d →
      t.streams = str0 →
      t.stream_list_suspended = false →
      (∃ fbR, t.findDev (fallback_idx Direction.OUTPUT) = some fbR ∧
        fbR.direction = Direction.OUTPUT) →
      t.enabledList Direction.OUTPUT
        = (if b then e ++ [fallback_idx Direction.OUTPUT] else e) →
      ∃ t1 ev1 io1 rp1 b1,
        (∀ (c1 : RoutingState) (c2 : List REvent) (cio : List Nat)
            (crp : Bool),
          saGo sys r rest t1 io1 rp1 = (c1, c2, cio, crp) →
          saGo sys r (L1 ++ rest) t io rp = (c1, ev1 ++ c2, cio, crp)) ∧
        io1.length ≤ io.length + L1.length ∧
        t1.findDev d.idx = some d ∧
        t1.streams = str0 ∧
        t1.stream_list_suspended = false ∧
        (∃ fbR, t1.findDev (fallback_idx Direction.OUTPUT) = some fbR ∧
          fbR.direction = Direction.OUTPUT) ∧
        t1.enabledList Direction.OUTPUT
          = (if b1 then e ++ [fallback_idx Direction.OUTPUT] else e) ∧
        (b1 = true → b = true ∨
          REvent.devEnabled (fallback_idx Direction.OUTPUT) ∈ ev1) := by
  intro L1
  induction L1 with
  | nil =>
    intro _ rest t io rp b hbound hfd hst hsu hfbR hshape
    refine ⟨t, [], io, rp, b, ?_, ?_, hfd, hst, hsu, hfbR, hshape,
      fun hb => Or.inl hb⟩
    · intro c1 c2 cio crp hc
      simpa using hc
    · simp
  | cons j L1' ih =>
    intro hd1 rest t io rp b hbound hfd hst hsu hfbR hshape
    have hjd : j ≠ d.idx := fun h =>
      hd1 (List.mem_cons.mpr (Or.inl h.symm))
    have hd1' : d.idx ∉ L1' := fun h =>
      hd1 (List.mem_cons.mpr (Or.inr h))
    have hbound' : io.length + L1'.length < NUM_OPEN_DEVS_MAX := by
      simp only [List.length_cons] at hbound
      omega
    by_cases hjfb : j = fallback_idx Direction.OUTPUT
    · obtain ⟨t1, ev1, io1, rp1, b1, heq, hio, h3, h4, h5, h6, h7, h8⟩ :=
        ih hd1' rest t io rp b hbound' hfd hst hsu hfbR hshape
      refine ⟨t1, ev1, io1, rp1, b1, ?_, ?_, h3, h4, h5, h6, h7, h8⟩
      · intro c1 c2 cio crp hc
        have hmid := heq c1 c2 cio crp hc
        simp only [List.cons_append, saGo]
        rw [hdir, if_pos hjfb]
        exact hmid
      · simp only [List.length_cons]
        omega
    · have hguard : ¬ NUM_OPEN_DEVS_MAX ≤ io.length := by
        simp only [List.length_cons] at hbound
        omega
      cases hf : t.findDev j with
      | none =>
        obtain ⟨t1, ev1, io1, rp1, b1, heq, hio, h3, h4, h5, h6, h7, h8⟩ :=
          ih hd1' rest t io rp b hbound' hfd hst hsu hfbR hshape
        refine ⟨t1, ev1, io1, rp1, b1, ?_, ?_, h3, h4, h5, h6, h7, h8⟩
        · intro c1 c2 cio crp hc
          have hmid := heq c1 c2 cio crp hc
          simp only [List.cons_append, saGo]
          rw [hdir, if_neg hjfb, if_neg hguard, hf]
          exact hmid
        · simp only [List.length_cons]
          omega
      | some devj =>
        by_cases hcond : ((cras_iodev_is_open devj &&
            (match devj.format_num_channels with
             | some ch2 => decide (ch2 < r.num_channels)
             | none => false)) &&
            decide (r.num_channels ≤ devj.max_supported_channels)) = true
        · obtain ⟨fbR, hfbR', hfbRdir⟩ := hfbR
          obtain ⟨tA, evA, hpefEq, hjA, hstA, hsuA, hfbA, henA, hdevA⟩ :=
            pef_run sys t fbR e b hfbR' hfbRdir hshape hfbe
          obtain ⟨tB, evB, hrstEq, hjB, henB, hstB, hflB, hsuB⟩ :=
            restart_dev_pres sys tA j
          have hfdB : tB.findDev d.idx = some d := by
            rw [hjB d.idx (fun h => hjd h.symm), hjA d.idx hnfb]
            exact hfd
          have hstB' : tB.streams = str0 := by
            rw [hstB, hstA, hst]
          have hsuB' : tB.stream_list_suspended = false := by
            rw [hsuB, hsuA, hsu]
          have hfbB : ∃ fbR2, tB.findDev (fallback_idx Direction.OUTPUT)
              = some fbR2 ∧ fbR2.direction = Direction.OUTPUT := by
            obtain ⟨fbR2, hfbR2, hdir2⟩ := hfbA
            exact ⟨fbR2, by
              rw [hjB _ (fun h => hjfb h.symm)]; exact hfbR2, hdir2⟩
          have hshapeB : tB.enabledList Direction.OUTPUT
              = (if true then e ++ [fallback_idx Direction.OUTPUT] else e)
              := by
            rw [henB Direction.OUTPUT, henA]
            simp
          obtain ⟨t1, ev1, io1, rp1, b1, heq, hio, h3, h4, h5, h6, h7, h8⟩
            := ih hd1' rest tB io true true hbound' hfdB hstB' hsuB' hfbB
              hshapeB
          refine ⟨t1, evA ++ evB ++ ev1, io1, rp1, b1, ?_, ?_, h3, h4, h5,
            h6, h7, ?_⟩
          · intro c1 c2 cio crp hc
            have hmid := heq c1 c2 cio crp hc
            simp only [List.cons_append, saGo]
            rw [hdir, if_neg hjfb, if_neg hguard, hf]
            dsimp only
            rw [hcond, if_pos rfl]
            rw [hpefEq]
            dsimp only
            rw [hrstEq]
            dsimp only
            simp only [List.append_eq]
            rw [hmid]
            simp [List.append_assoc]
          · simp only [List.length_cons]
            omega
          · intro _
            cases hbv : b with
            | true => exact Or.inl rfl
            | false =>
              refine Or.inr ?_
              exact List.mem_append_left _
                (List.mem_append_left _ (hdevA hbv))
        · obtain ⟨sa, eva, hinitEq, hjI, henI, hstI, hflI, hsuI, hdvI⟩ :=
            init_device_pres sys t j r
          have hfdI : sa.findDev d.idx = some d := by
            rw [hjI d.idx (fun h => hjd h.symm)]
            exact hfd
          have hstI' : sa.streams = str0 := by rw [hstI, hst]
          have hsuI' : sa.stream_list_suspended = false := by
            rw [hsuI, hsu]
          have hfbI : ∃ fbR2, sa.findDev (fallback_idx Direction.OUTPUT)
              = some fbR2 ∧ fbR2.direction = Direction.OUTPUT := by
            obtain ⟨fbR, hfbR', hfbRdir⟩ := hfbR
            exact ⟨fbR, by
              rw [hjI _ (fun h => hjfb h.symm)]; exact hfbR', hfbRdir⟩
          have hshapeI : sa.enabledList Direction.OUTPUT
              = (if b then e ++ [fallback_idx Direction.OUTPUT] else e)
              := by
            rw [henI Direction.OUTPUT, hshape]
          have hboundI : (io ++ [j]).length + L1'.length
              < NUM_OPEN_DEVS_MAX := by
            simp only [List.length_cons] at hbound
            simp only [List.length_append, List.length_cons,
              List.length_nil]
            omega
          obtain ⟨t1, ev1, io1, rp1, b1, heq, hio, h3, h4, h5, h6, h7, h8⟩
            := ih hd1' rest sa (io ++ [j]) rp b hboundI hfdI hstI' hsuI'
              hfbI hshapeI
          refine ⟨t1, eva ++ ev1, io1, rp1, b1, ?_, ?_, h3, h4, h5, h6, h7,
            ?_⟩
          · intro c1 c2 cio crp hc
            have hmid := heq c1 c2 cio crp hc
            simp only [List.cons_append, saGo]
            rw [hdir, if_neg hjfb, if_neg hguard, hf]
            dsimp only
            rw [if_neg hcond]
            rw [hinitEq]
            dsimp only
            simp only [List.append_eq]
            rw [hmid]
            simp [List.append_assoc]
          · simp only [List.length_append, List.length_cons,
              List.length_nil] at hio ⊢
            omega
          · intro hb1
            rcases h8 hb1 with hb | hm
            · exact Or.inl hb
            · exact Or.inr (List.mem_append_right _ hm)

/-- The enabled-device loop after the target device was re-opened: the
loop preserves the re-opened device's entry — open at the stream's channel
count, its attach list still extending the re-attached ids — keeps the
fallback enabled at the tail of the OUTPUT enabled list, and keeps the
re-opened flag set. -/
theorem saGo_post_run (sys : SysConfig) (r : RStream) (d : IoDev)
    (fm : List Nat) (e : List Nat)
    (hdir : r.direction = Direction.OUTPUT)
    (hnfb : d.idx ≠ fallback_idx Direction.OUTPUT)
    (hfbe : fallback_idx Direction.OUTPUT ∉ e) :
    ∀ (L2 : List Nat) (t : RoutingState) (io : List Nat),
      (∃ d2 rest2, t.findDev d.idx = some d2 ∧ d2.is_open = true ∧
        d2.format_num_channels = some r.num_channels ∧
        d2.attached = fm ++ rest2) →
      (∃ fbR, t.findDev (fallback_idx Direction.OUTPUT) = some fbR ∧
        fbR.direction = Direction.OUTPUT) →
      t.enabledList Direction.OUTPUT
        = e ++ [fallback_idx Direction.OUTPUT] →
      ∃ t2 ev2 io2,
        saGo sys r L2 t io true = (t2, ev2, io2, true) ∧
        (∃ d2 rest2, t2.findDev d.idx = some d2 ∧ d2.is_open = true ∧
          d2.format_num_channels = some r.num_channels ∧
          d2.attached = fm ++ rest2) ∧
        (∃ fbR, t2.findDev (fallback_idx Direction.OUTPUT) = some fbR ∧
          fbR.direction = Direction.OUTPUT) ∧
        t2.enabledList Direction.OUTPUT
          = e ++ [fallback_idx Direction.OUTPUT] := by
  intro L2
  induction L2 with
  | nil =>
    intro t io hd2 hfbR hshape
    exact ⟨t, [], io, rfl, hd2, hfbR, hshape⟩
  | cons j L2' ih =>
    intro t io hd2 hfbR hshape
    by_cases hjfb : j = fallback_idx Direction.OUTPUT
    · obtain ⟨t2, ev2, io2, heq, h1, h2, h3⟩ := ih t io hd2 hfbR hshape
      refine ⟨t2, ev2, io2, ?_, h1, h2, h3⟩
      simp only [saGo]
      rw [hdir, if_pos hjfb]
      exact heq
    · by_cases hguard : NUM_OPEN_DEVS_MAX ≤ io.length
      · refine ⟨t, [], io, ?_, hd2, hfbR, hshape⟩
        simp only [saGo]
        rw [hdir, if_neg hjfb, if_pos hguard]
      · cases hf : t.findDev j with
        | none =>
          obtain ⟨t2, ev2, io2, heq, h1, h2, h3⟩ := ih t io hd2 hfbR hshape
          refine ⟨t2, ev2, io2, ?_, h1, h2, h3⟩
          simp only [saGo]
          rw [hdir, if_neg hjfb, if_neg hguard, hf]
          exact heq
        | some devj =>
          by_cases hcond : ((cras_iodev_is_open devj &&
              (match devj.format_num_channels with
               | some ch2 => decide (ch2 < r.num_channels)
               | none => false)) &&
              decide (r.num_channels ≤ devj.max_supported_channels)) = true
          · have hjd : j ≠ d.idx := by
              intro hjdeq
              obtain ⟨d2, rest2, hfd2, _, hfmt2, _⟩ := hd2
              rw [hjdeq, hfd2] at hf
              injection hf with hdev
              rw [← hdev, hfmt2] at hcond
              simp [lt_irrefl] at hcond
            obtain ⟨fbR, hfbR', hfbRdir⟩ := hfbR
            obtain ⟨tA, evA, hpefEq, hjA, hstA, hsuA, hfbA, henA, _⟩ :=
              pef_run sys t fbR e true hfbR' hfbRdir
                (by rw [hshape]; simp) hfbe
            obtain ⟨tB, evB, hrstEq, hjB, henB, hstB, hflB, hsuB⟩ :=
              restart_dev_pres sys tA j
            have hd2B : ∃ d2 rest2, tB.findDev d.idx = some d2 ∧
                d2.is_open = true ∧
                d2.format_num_channels = some r.num_channels ∧
                d2.attached = fm ++ rest2 := by
              obtain ⟨d2, rest2, hfd2, hop, hfm2, hat⟩ := hd2
              exact ⟨d2, rest2, by
                rw [hjB d.idx (fun h => hjd h.symm), hjA d.idx hnfb]
                exact hfd2, hop, hfm2, hat⟩
            have hfbB : ∃ fbR2, tB.findDev (fallback_idx Direction.OUTPUT)
                = some fbR2 ∧ fbR2.direction = Direction.OUTPUT := by
              obtain ⟨fbR2, hfbR2, hdir2⟩ := hfbA
              exact ⟨fbR2, by
                rw [hjB _ (fun h => hjfb h.symm)]; exact hfbR2, hdir2⟩
            have hshapeB : tB.enabledList Direction.OUTPUT
                = e ++ [fallback_idx Direction.OUTPUT] := by
              rw [henB Direction.OUTPUT, henA]
            obtain ⟨t2, ev2, io2, heq, h1, h2, h3⟩ :=
              ih tB io hd2B hfbB hshapeB
            refine ⟨t2, evA ++ evB ++ ev2, io2, ?_, h1, h2, h3⟩
            simp only [saGo]
            rw [hdir, if_neg hjfb, if_neg hguard, hf]
            dsimp only
            rw [hcond, if_pos rfl]
            rw [hpefEq]
            dsimp only
            rw [hrstEq]
            dsimp only
            rw [heq]
          · by_cases hjd : j = d.idx
            · obtain ⟨d2, rest2, hfd2, hop, hfm2, hat⟩ := hd2
              subst hjd
              have hdev : devj = d2 := by
                have := hf.symm.trans hfd2
                injection this
              subst hdev
              have hinit := init_device_open sys t d.idx r devj hf hop
              obtain ⟨t2, ev2, io2, heq, h1, h2, h3⟩ :=
                ih t (io ++ [d.idx])
                  ⟨devj, rest2, hfd2, hop, hfm2, hat⟩ hfbR hshape
              refine ⟨t2, ev2, io2, ?_, h1, h2, h3⟩
              simp only [saGo]
              rw [hdir, if_neg hjfb, if_neg hguard, hf]
              dsimp only
              rw [if_neg hcond]
              rw [hinit]
              dsimp only
              rw [heq]
              simp
            · obtain ⟨sa, eva, hinitEq, hjI, henI, hstI, hflI, hsuI, hdvI⟩ :=
                init_device_pres sys t j r
              have hd2I : ∃ d2 rest2, sa.findDev d.idx = some d2 ∧
                  d2.is_open = true ∧
                  d2.format_num_channels = some r.num_channels ∧
                  d2.attached = fm ++ rest2 := by
                obtain ⟨d2, rest2, hfd2, hop, hfm2, hat⟩ := hd2
                exact ⟨d2, rest2, by
                  rw [hjI d.idx (fun h => hjd h.symm)]
                  exact hfd2, hop, hfm2, hat⟩
              have hfbI : ∃ fbR2, sa.findDev (fallback_idx Direction.OUTPUT)
                  = some fbR2 ∧ fbR2.direction = Direction.OUTPUT := by
                obtain ⟨fbR, hfbR', hfbRdir⟩ := hfbR
                exact ⟨fbR, by
                  rw [hjI _ (fun h => hjfb h.symm)]; exact hfbR', hfbRdir⟩
              have hshapeI : sa.enabledList Direction.OUTPUT
                  = e ++ [fallback_idx Direction.OUTPUT] := by
                rw [henI Direction.OUTPUT, hshape]
              obtain ⟨t2, ev2, io2, heq, h1, h2, h3⟩ :=
                ih sa (io ++ [j]) hd2I hfbI hshapeI
              refine ⟨t2, eva ++ ev2, io2, ?_, h1, h2, h3⟩
              simp only [saGo]
              rw [hdir, if_neg hjfb, if_neg hguard, hf]
              dsimp only
              rw [if_neg hcond]
              rw [hinitEq]
              dsimp only
              rw [heq]

/-- The flexible-loopback loop of `stream_added_cb` preserves the re-opened
device's entry, the fallback's record and the OUTPUT enabled list. -/
theorem saFloop_post_run (sys : SysConfig) (r : RStream) (d : IoDev)
    (fm : List Nat) (e : List Nat) :
    ∀ (pairs : List (Nat × Nat)) (t : RoutingState) (io : List Nat),
      (∃ d2 rest2, t.findDev d.idx = some d2 ∧ d2.is_open = true ∧
        d2.format_num_channels = some r.num_channels ∧
        d2.attached = fm ++ rest2) →
      (∃ fbR, t.findDev (fallback_idx Direction.OUTPUT) = some fbR ∧
        fbR.direction = Direction.OUTPUT) →
      t.enabledList Direction.OUTPUT
        = e ++ [fallback_idx Direction.OUTPUT] →
      ∃ t3 ev3 io3,
        saFloop sys r pairs t io = (t3, ev3, io3) ∧
        (∃ d2 rest2, t3.findDev d.idx = some d2 ∧ d2.is_open = true ∧
          d2.format_num_channels = some r.num_channels ∧
          d2.attached = fm ++ rest2) ∧
        (∃ fbR, t3.findDev (fallback_idx Direction.OUTPUT) = some fbR ∧
          fbR.direction = Direction.OUTPUT) ∧
        t3.enabledList Direction.OUTPUT
          = e ++ [fallback_idx Direction.OUTPUT] := by
  intro pairs
  induction pairs with
  | nil =>
    intro t io hd2 hfbR hshape
    exact ⟨t, [], io, rfl, hd2, hfbR, hshape⟩
  | cons p pairs' ih =>
    obtain ⟨fidx, mask⟩ := p
    intro t io hd2 hfbR hshape
    by_cases hmatch : cras_floop_pair_match_output_stream mask r = true
    · by_cases hguard : NUM_OPEN_DEVS_MAX ≤ io.length
      · refine ⟨t, [], io, ?_, hd2, hfbR, hshape⟩
        simp only [saFloop]
        rw [if_neg (by simpa using hmatch), if_pos hguard]
      · by_cases hjd : fidx = d.idx
        · obtain ⟨d2, rest2, hfd2, hop, hfm2, hat⟩ := hd2
          subst hjd
          have hinit := init_device_open sys t d.idx r d2 hfd2 hop
          obtain ⟨t3, ev3, io3, heq, h1, h2, h3⟩ :=
            ih t (io ++ [d.idx])
              ⟨d2, rest2, hfd2, hop, hfm2, hat⟩ hfbR hshape
          refine ⟨t3, ev3, io3, ?_, h1, h2, h3⟩
          simp only [saFloop]
          rw [if_neg (by simpa using hmatch), if_neg hguard]
          rw [hinit]
          dsimp only
          rw [heq]
          simp
        · obtain ⟨sa, eva, hinitEq, hjI, henI, hstI, hflI, hsuI, hdvI⟩ :=
            init_device_pres sys t fidx r
          have hd2I : ∃ d2 rest2, sa.findDev d.idx = some d2 ∧
              d2.is_open = true ∧
              d2.format_num_channels = some r.num_channels ∧
              d2.attached = fm ++ rest2 := by
            obtain ⟨d2, rest2, hfd2, hop, hfm2, hat⟩ := hd2
            exact ⟨d2, rest2, by
              rw [hjI d.idx (fun h => hjd h.symm)]
              exact hfd2, hop, hfm2, hat⟩
          have hfbI : ∃ fbR2,
              sa.findDev (fallback_idx Direction.OUTPUT) = some fbR2 ∧
              fbR2.direction = Direction.OUTPUT := by
            obtain ⟨fbR, hfbR', hfbRdir⟩ := hfbR
            by_cases hjfb : fidx = fallback_idx Direction.OUTPUT
            · obtain ⟨dev', hdev', hdirp⟩ :=
                hdvI fbR (by rw [hjfb]; exact hfbR')
              exact ⟨dev', by rw [← hjfb]; exact hdev', by
                rw [hdirp]; exact hfbRdir⟩
            · exact ⟨fbR, by
                rw [hjI _ (fun h => hjfb h.symm)]; exact hfbR', hfbRdir⟩
          have hshapeI : sa.enabledList Direction.OUTPUT
              = e ++ [fallback_idx Direction.OUTPUT] := by
            rw [henI Direction.OUTPUT, hshape]
          obtain ⟨t3, ev3, io3, heq, h1, h2, h3⟩ :=
            ih sa (io ++ [fidx]) hd2I hfbI hshapeI
          refine ⟨t3, eva ++ ev3, io3, ?_, h1, h2, h3⟩
          simp only [saFloop]
          rw [if_neg (by simpa using hmatch), if_neg hguard]
          rw [hinitEq]
          dsimp only
          rw [heq]
    · obtain ⟨t3, ev3, io3, heq, h1, h2, h3⟩ := ih t io hd2 hfbR hshape
      refine ⟨t3, ev3, io3, ?_, h1, h2, h3⟩
      simp only [saFloop]
      rw [if_pos (by simpa using hmatch)]
      exact heq

/-- `add_stream_to_open_devs` preserves the re-opened device's facts (its
attach list only grows), the fallback's record, and all enabled lists. -/
theorem add_stream_pres (r : RStream) (d : IoDev) (fm : List Nat) :
    ∀ (idxs : List Nat) (t : RoutingState),
      (∃ d2 rest2, t.findDev d.idx = some d2 ∧ d2.is_open = true ∧
        d2.format_num_channels = some r.num_channels ∧
        d2.attached = fm ++ rest2) →
      (∃ fbR, t.findDev (fallback_idx Direction.OUTPUT) = some fbR ∧
        fbR.direction = Direction.OUTPUT) →
      ∃ t4,
        add_stream_to_open_devs t r idxs
          = (0, t4, [REvent.streamAttached r.id idxs]) ∧
        (∃ d2 rest2, t4.findDev d.idx = some d2 ∧ d2.is_open = true ∧
          d2.format_num_channels = some r.num_channels ∧
          d2.attached = fm ++ rest2) ∧
        (∃ fbR, t4.findDev (fallback_idx Direction.OUTPUT) = some fbR ∧
          fbR.direction = Direction.OUTPUT) ∧
        (∀ d', t4.enabledList d' = t.enabledList d') := by
  have hstep : ∀ (k : Nat) (u : RoutingState),
      (∃ d2 rest2, u.findDev d.idx = some d2 ∧ d2.is_open = true ∧
        d2.format_num_channels = some r.num_channels ∧
        d2.attached = fm ++ rest2) →
      (∃ fbR, u.findDev (fallback_idx Direction.OUTPUT) = some fbR ∧
        fbR.direction = Direction.OUTPUT) →
      ((∃ d2 rest2, (u.updateDev k (fun dd =>
          { dd with attached := dd.attached ++ [r.id] })).findDev d.idx
            = some d2 ∧ d2.is_open = true ∧
          d2.format_num_channels = some r.num_channels ∧
          d2.attached = fm ++ rest2) ∧
        (∃ fbR, (u.updateDev k (fun dd =>
          { dd with attached := dd.attached ++ [r.id] })).findDev
            (fallback_idx Direction.OUTPUT) = some fbR ∧
          fbR.direction = Direction.OUTPUT)) := by
    intro k u hd2 hfbR
    constructor
    · obtain ⟨d2, rest2, hfd2, hop, hfm2, hat⟩ := hd2
      by_cases hk : d.idx = k
      · refine ⟨{ d2 with attached := d2.attached ++ [r.id] },
          rest2 ++ [r.id], ?_, hop, hfm2, ?_⟩
        · rw [← hk]
          exact findDev_updateDev_self u d.idx _ d2 (fun dd hd => hd) hfd2
        · show d2.attached ++ [r.id] = fm ++ (rest2 ++ [r.id])
          rw [hat, List.append_assoc]
      · refine ⟨d2, rest2, ?_, hop, hfm2, hat⟩
        refine Eq.trans (findDev_updateDev_ne _ _ _ _ (fun dd hd => hd)
          hk) ?_
        exact hfd2
    · obtain ⟨fbR, hfbR2, hfbRdir⟩ := hfbR
      by_cases hk : fallback_idx Direction.OUTPUT = k
      · refine ⟨{ fbR with attached := fbR.attached ++ [r.id] }, ?_,
          hfbRdir⟩
        rw [← hk]
        exact findDev_updateDev_self u _ _ fbR (fun dd hd => hd) hfbR2
      · refine ⟨fbR, ?_, hfbRdir⟩
        refine Eq.trans (findDev_updateDev_ne _ _ _ _ (fun dd hd => hd)
          hk) ?_
        exact hfbR2
  have hfold : ∀ (ks : List Nat) (u : RoutingState),
      (∃ d2 rest2, u.findDev d.idx = some d2 ∧ d2.is_open = true ∧
        d2.format_num_channels = some r.num_channels ∧
        d2.attached = fm ++ rest2) →
      (∃ fbR, u.findDev (fallback_idx Direction.OUTPUT) = some fbR ∧
        fbR.direction = Direction.OUTPUT) →
      ((∃ d2 rest2, (List.foldl (fun acc idx => acc.updateDev idx
          (fun dd => { dd with attached := dd.attached ++ [r.id] }))
          u ks).findDev d.idx = some d2 ∧ d2.is_open = true ∧
          d2.format_num_channels = some r.num_channels ∧
          d2.attached = fm ++ rest2) ∧
        (∃ fbR, (List.foldl (fun acc idx => acc.updateDev idx
          (fun dd => { dd with attached := dd.attached ++ [r.id] }))
          u ks).findDev (fallback_idx Direction.OUTPUT) = some fbR ∧
          fbR.direction = Direction.OUTPUT) ∧
        (∀ d', (List.foldl (fun acc idx => acc.updateDev idx
          (fun dd => { dd with attached := dd.attached ++ [r.id] }))
          u ks).enabledList d' = u.enabledList d')) := by
    intro ks
    induction ks with
    | nil => intro u h1 h2; exact ⟨h1, h2, fun _ => rfl⟩
    | cons k ks ih =>
      intro u h1 h2
      obtain ⟨h1', h2'⟩ := hstep k u h1 h2
      obtain ⟨g1, g2, g3⟩ := ih (u.updateDev k
        (fun dd => { dd with attached := dd.attached ++ [r.id] })) h1' h2'
      refine ⟨?_, ?_, ?_⟩
      · simpa only [List.foldl_cons] using g1
      · simpa only [List.foldl_cons] using g2
      · intro d'
        have := g3 d'
        simp only [List.foldl_cons] at this ⊢
        rw [this, enabledList_updateDev]
  intro idxs t hd2 hfbR
  obtain ⟨g1, g2, g3⟩ := hfold idxs t hd2 hfbR
  exact ⟨_, rfl, g1, g2, g3⟩

/-- C5: adding a non-pinned OUTPUT stream while some enabled non-fallback
output device is open with fewer channels than the stream declares — the
stream's channel count not exceeding the device's `max_supported_channels`
— makes the routing policy enable the fallback device, close and re-open
that device so its format's channel count matches the incoming stream,
re-attach the attachable streams (the incoming one included), and finally
disable the fallback: the four events appear in this order in the emitted
trace, and in the final state the device is open at the stream's channel
count and still enabled, its attach list headed by the re-attached
attachable stream ids, while the fallback is off the enabled list. The
enabled list is within the loop's `NUM_OPEN_DEVS_MAX` device cap (past the
cap the source breaks out of the loop), the fallback is not yet enabled,
and the first stream the re-open attaches carries the new stream's channel
count (the device re-opens with the first attachable stream's format). -/
theorem stream_added_reopen_spec (sys : SysConfig) (s : RoutingState)
    (r : RStream) (d fbdev : IoDev) (ch : Nat) (fst : RStream)
    (ftl : List RStream)
    (hsusp : s.stream_list_suspended = false)
    (hnp : r.is_pinned = false)
    (hdir : r.direction = Direction.OUTPUT)
    (hmem : d.idx ∈ s.enabledList Direction.OUTPUT)
    (hlen : (s.enabledList Direction.OUTPUT).length ≤ NUM_OPEN_DEVS_MAX)
    (hfind : s.findDev d.idx = some d)
    (hddir : d.direction = Direction.OUTPUT)
    (hopen : d.is_open = true)
    (hfmt : d.format_num_channels = some ch)
    (hlt : ch < r.num_channels)
    (hmax : r.num_channels ≤ d.max_supported_channels)
    (hnfb : d.idx ≠ fallback_idx Direction.OUTPUT)
    (hfbni : fallback_idx Direction.OUTPUT ∉ s.enabledList Direction.OUTPUT)
    (hfb : s.findDev (fallback_idx Direction.OUTPUT) = some fbdev)
    (hfbdir : fbdev.direction = Direction.OUTPUT)
    (hfilter : s.streams.filter (can_attach Direction.OUTPUT d.idx true)
      = fst :: ftl)
    (hfch : fst.num_channels = r.num_channels)
    (hrmem : r ∈ s.streams) :
    ∃ s' ev,
      stream_added_cb sys s r = (0, s', ev) ∧
      [REvent.devEnabled (fallback_idx Direction.OUTPUT),
       REvent.devClosed d.idx,
       REvent.devOpened d.idx r.num_channels,
       REvent.devDisabled (fallback_idx Direction.OUTPUT)].Sublist ev ∧
      d.idx ∈ s'.enabledList Direction.OUTPUT ∧
      fallback_idx Direction.OUTPUT ∉ s'.enabledList Direction.OUTPUT ∧
      (∃ d2 rest2, s'.findDev d.idx = some d2 ∧ d2.is_open = true ∧
        d2.format_num_channels = some r.num_channels ∧
        d2.attached = (s.streams.filter
          (can_attach Direction.OUTPUT d.idx true)).map (fun st => st.id)
          ++ rest2 ∧
        r.id ∈ d2.attached) := by
  obtain ⟨L1, L2, hsplit, hL1⟩ :=
    mem_split_first d.idx (s.enabledList Direction.OUTPUT) hmem
  have hlen1 : L1.length + 1 ≤ NUM_OPEN_DEVS_MAX := by
    have hlEq : (s.enabledList Direction.OUTPUT).length
        = L1.length + (d.idx :: L2).length := by
      rw [hsplit, List.length_append]
    rw [hlEq] at hlen
    simp only [List.length_cons] at hlen
    omega
  -- Phase 1: the loop prefix before the device.
  obtain ⟨t1, ev1, io1, rp1, b1, heqA, hio1, hfd1, hst1, hsu1, hfbR1,
      hshape1, hb1⟩ :=
    saGo_prefix_run sys r d (s.enabledList Direction.OUTPUT) s.streams
      hdir hnfb hfbni L1 hL1 (d.idx :: L2) s [] false false
      (by simp only [List.length_nil]; omega)
      hfind rfl hsusp ⟨fbdev, hfb, hfbdir⟩ (by simp)
  -- Phase 2: the device's re-open iteration.
  obtain ⟨fbR1, hfbR1f, hfbR1dir⟩ := hfbR1
  obtain ⟨tA, evA, hpefEq, hjA, hstA, hsuA, hfbA, henA, hdevA⟩ :=
    pef_run sys t1 fbR1 (s.enabledList Direction.OUTPUT) b1 hfbR1f
      hfbR1dir hshape1 hfbni
  have hfdA : tA.findDev d.idx = some d := by
    rw [hjA d.idx hnfb]
    exact hfd1
  have hstA2 : tA.streams = s.streams := by rw [hstA, hst1]
  have hsuA2 : tA.stream_list_suspended = false := by rw [hsuA, hsu1]
  have hmemA : d.idx ∈ tA.enabledList d.direction := by
    rw [hddir, henA]
    exact List.mem_append_left _ hmem
  have hfilterA : tA.streams.filter (can_attach d.direction d.idx true)
      = fst :: ftl := by
    rw [hstA2, hddir]
    exact hfilter
  obtain ⟨tB, evA2, evB2, hrstEq, hOpenMem, hjB, henB, hstB, hflB, hsuB,
      hhwB, ⟨dF, hfdF, hFidx, hFdir, hFopen, hFfmt, hFatt⟩⟩ :=
    restart_dev_run sys tA d.idx d fst ftl hfdA hopen hsuA2 hmemA hfilterA
  have hFfmt2 : dF.format_num_channels = some r.num_channels := by
    rw [hFfmt, hfch]
  have hFatt2 : dF.attached = (s.streams.filter
      (can_attach Direction.OUTPUT d.idx true)).map (fun st => st.id)
      ++ [] := by
    rw [hFatt, hstA2, hddir]
    simp
  have hd2B : ∃ d2 rest2, tB.findDev d.idx = some d2 ∧ d2.is_open = true ∧
      d2.format_num_channels = some r.num_channels ∧
      d2.attached = (s.streams.filter
        (can_attach Direction.OUTPUT d.idx true)).map (fun st => st.id)
        ++ rest2 :=
    ⟨dF, [], hfdF, hFopen, hFfmt2, hFatt2⟩
  have hfbB : ∃ fbR2, tB.findDev (fallback_idx Direction.OUTPUT)
      = some fbR2 ∧ fbR2.direction = Direction.OUTPUT := by
    obtain ⟨fbR2, hfbR2, hdir2⟩ := hfbA
    exact ⟨fbR2, by
      rw [hjB _ (fun h => hnfb h.symm)]
      exact hfbR2, hdir2⟩
  have hshapeB : tB.enabledList Direction.OUTPUT
      = s.enabledList Direction.OUTPUT ++ [fallback_idx Direction.OUTPUT]
      := by
    rw [henB Direction.OUTPUT, henA]
  -- Phase 3: the loop tail after the device.
  obtain ⟨t2, ev2, io2, hsaL2, hd22, hfb2, hshape2⟩ :=
    saGo_post_run sys r d _ (s.enabledList Direction.OUTPUT) hdir hnfb
      hfbni L2 tB io1 hd2B hfbB hshapeB
  have hcondEq : ((cras_iodev_is_open d &&
      (match d.format_num_channels with
        | some ch2 => decide (ch2 < r.num_channels)
        | none => false)) &&
       decide (r.num_channels ≤ d.max_supported_channels)) = true := by
    unfold cras_iodev_is_open
    rw [hopen, hfmt]
    simp [hlt, hmax]
  have hguard1 : ¬ NUM_OPEN_DEVS_MAX ≤ io1.length := by
    simp only [List.length_nil] at hio1
    omega
  have hdEq : saGo sys r (d.idx :: L2) t1 io1 rp1
      = (t2, evA ++ ((REvent.streamsRemoved d.idx
          :: REvent.devClosed d.idx :: evA2) ++ evB2) ++ ev2, io2, true)
      := by
    simp only [saGo]
    rw [hdir, if_neg hnfb, if_neg hguard1, hfd1]
    dsimp only
    rw [hcondEq, if_pos rfl]
    rw [hpefEq]
    dsimp only
    rw [hrstEq]
    dsimp only
    rw [hsaL2]
  have hfullEq := heqA t2 (evA ++ ((REvent.streamsRemoved d.idx
      :: REvent.devClosed d.idx :: evA2) ++ evB2) ++ ev2) io2 true hdEq
  -- Phase 4: the flexible-loopback loop.
  obtain ⟨t3, ev3, io3, hflEq, hd23, hfb3, hshape3⟩ :=
    saFloop_post_run sys r d _ (s.enabledList Direction.OUTPUT)
      t2.floop_outputs t2 io2 hd22 hfb2 hshape2
  -- Phase 5: the fallback is disabled; shared ending.
  have hfinish : ∀ (s4v : RoutingState),
      (∃ d2 rest2, s4v.findDev d.idx = some d2 ∧ d2.is_open = true ∧
        d2.format_num_channels = some r.num_channels ∧
        d2.attached = (s.streams.filter
          (can_attach Direction.OUTPUT d.idx true)).map (fun st => st.id)
          ++ rest2) →
      (∃ fbR, s4v.findDev (fallback_idx Direction.OUTPUT) = some fbR ∧
        fbR.direction = Direction.OUTPUT) →
      s4v.enabledList Direction.OUTPUT
        = s.enabledList Direction.OUTPUT
          ++ [fallback_idx Direction.OUTPUT] →
      ∃ t5 ev5,
        possibly_disable_fallback sys s4v Direction.OUTPUT
          = (t5, REvent.devDisabled (fallback_idx Direction.OUTPUT)
              :: ev5) ∧
        d.idx ∈ t5.enabledList Direction.OUTPUT ∧
        fallback_idx Direction.OUTPUT ∉ t5.enabledList Direction.OUTPUT ∧
        (∃ d2 rest2, t5.findDev d.idx = some d2 ∧ d2.is_open = true ∧
          d2.format_num_channels = some r.num_channels ∧
          d2.attached = (s.streams.filter
            (can_attach Direction.OUTPUT d.idx true)).map
              (fun st => st.id) ++ rest2 ∧
          r.id ∈ d2.attached) := by
    intro s4v hJ4 hfb4 hshape4
    obtain ⟨fbR4, hfbR4, hfbR4dir⟩ := hfb4
    obtain ⟨t5, ev5, hdisEq, hen5, hj5⟩ :=
      disable_fallback_run sys s4v fbR4 (s.enabledList Direction.OUTPUT)
        hfbR4 hfbR4dir hshape4 hfbni
    have hpdf : possibly_disable_fallback sys s4v Direction.OUTPUT
        = (t5, REvent.devDisabled (fallback_idx Direction.OUTPUT) :: ev5)
        := by
      unfold possibly_disable_fallback
      rw [if_pos (by rw [hshape4]; simp)]
      exact hdisEq
    obtain ⟨d2, rest2, hfd2, hop2, hfm2, hat2⟩ := hJ4
    have hrid : r.id ∈ d2.attached := by
      rw [hat2]
      refine List.mem_append_left _ ?_
      refine List.mem_map.mpr ⟨r, List.mem_filter.mpr ⟨hrmem, ?_⟩, rfl⟩
      simp [can_attach, hdir, hnp]
    refine ⟨t5, ev5, hpdf, ?_, ?_, d2, rest2, ?_, hop2, hfm2, hat2, hrid⟩
    · rw [hen5]
      exact hmem
    · rw [hen5]
      exact hfbni
    · rw [hj5 d.idx hnfb]
      exact hfd2
  by_cases hio3 : io3 = []
  · obtain ⟨t5, ev5, hpdf, hc1, hc2, hc3⟩ := hfinish t3 hd23 hfb3 hshape3
    have hmain : stream_added_cb sys s r = (0, t5,
        ev1 ++ (evA ++ (REvent.streamsRemoved d.idx
          :: REvent.devClosed d.idx :: (evA2 ++ (evB2 ++ (ev2 ++ (ev3
          ++ (REvent.devDisabled (fallback_idx Direction.OUTPUT)
              :: ev5)))))))) := by
      unfold stream_added_cb
      rw [if_neg (by rw [hsusp]; exact Bool.false_ne_true)]
      rw [if_neg (by rw [hnp]; exact Bool.false_ne_true)]
      dsimp only
      rw [hdir]
      rw [if_neg hfbni]
      dsimp only
      rw [hsplit, hfullEq]
      dsimp only
      rw [if_pos rfl]
      rw [hflEq]
      dsimp only
      rw [if_neg (show ¬ io3 ≠ [] by simp [hio3])]
      rw [if_neg (show ¬ ¬ (true = true) by simp)]
      rw [if_pos (show (decide (io3 ≠ []) || true) = true by simp)]
      rw [hpdf]
      simp only [List.append_assoc, List.cons_append, List.nil_append,
        List.append_nil]
    refine ⟨t5, _, hmain, ?_, hc1, hc2, hc3⟩
    have hEn : REvent.devEnabled (fallback_idx Direction.OUTPUT)
        ∈ ev1 ++ evA := by
      cases hb1v : b1 with
      | true =>
        rcases hb1 hb1v with hfalse | hm
        · exact absurd hfalse (by simp)
        · exact List.mem_append_left _ hm
      | false =>
        exact List.mem_append_right _ (hdevA hb1v)
    have h1 : [REvent.devEnabled (fallback_idx Direction.OUTPUT)].Sublist
        (ev1 ++ evA) := List.singleton_sublist.mpr hEn
    have h2 : [REvent.devClosed d.idx].Sublist
        (REvent.streamsRemoved d.idx :: REvent.devClosed d.idx :: evA2)
        := List.singleton_sublist.mpr (by simp)
    have h3 : [REvent.devOpened d.idx r.num_channels].Sublist evB2 :=
      List.singleton_sublist.mpr (by rw [← hfch]; exact hOpenMem)
    have h4 : [REvent.devDisabled
        (fallback_idx Direction.OUTPUT)].Sublist
        (REvent.devDisabled (fallback_idx Direction.OUTPUT) :: ev5) := by
      simp
    have hall := ((h1.append (h2.append h3)).append
      (List.nil_sublist (ev2 ++ ev3))).append h4
    simpa using hall
  · obtain ⟨t4, haddEq, hd24, hfb4a, hen4⟩ :=
      add_stream_pres r d _ io3 t3 hd23 hfb3
    have hshape4 : t4.enabledList Direction.OUTPUT
        = s.enabledList Direction.OUTPUT
          ++ [fallback_idx Direction.OUTPUT] := by
      rw [hen4 Direction.OUTPUT, hshape3]
    obtain ⟨t5, ev5, hpdf, hc1, hc2, hc3⟩ := hfinish t4 hd24 hfb4a hshape4
    have hmain : stream_added_cb sys s r = (0, t5,
        ev1 ++ (evA ++ (REvent.streamsRemoved d.idx
          :: REvent.devClosed d.idx :: (evA2 ++ (evB2 ++ (ev2 ++ (ev3
          ++ (REvent.streamAttached r.id io3
              :: REvent.devDisabled (fallback_idx Direction.OUTPUT)
              :: ev5)))))))) := by
      unfold stream_added_cb
      rw [if_neg (by rw [hsusp]; exact Bool.false_ne_true)]
      rw [if_neg (by rw [hnp]; exact Bool.false_ne_true)]
      dsimp only
      rw [hdir]
      rw [if_neg hfbni]
      dsimp only
      rw [hsplit, hfullEq]
      dsimp only
      rw [if_pos rfl]
      rw [hflEq]
      dsimp only
      rw [if_pos hio3]
      rw [haddEq]
      dsimp only
      rw [if_pos (show (decide (io3 ≠ []) || true) = true by simp)]
      rw [hpdf]
      simp only [List.append_assoc, List.cons_append, List.nil_append,
        List.append_nil]
    refine ⟨t5, _, hmain, ?_, hc1, hc2, hc3⟩
    have hEn : REvent.devEnabled (fallback_idx Direction.OUTPUT)
        ∈ ev1 ++ evA := by
      cases hb1v : b1 with
      | true =>
        rcases hb1 hb1v with hfalse | hm
        · exact absurd hfalse (by simp)
        · exact List.mem_append_left _ hm
      | false =>
        exact List.mem_append_right _ (hdevA hb1v)
    have h1 : [REvent.devEnabled (fallback_idx Direction.OUTPUT)].Sublist
        (ev1 ++ evA) := List.singleton_sublist.mpr hEn
    have h2 : [REvent.devClosed d.idx].Sublist
        (REvent.streamsRemoved d.idx :: REvent.devClosed d.idx :: evA2)
        := List.singleton_sublist.mpr (by simp)
    have h3 : [REvent.devOpened d.idx r.num_channels].Sublist evB2 :=
      List.singleton_sublist.mpr (by rw [← hfch]; exact hOpenMem)
    have h4 : [REvent.devDisabled
        (fallback_idx Direction.OUTPUT)].Sublist
        (REvent.devDisabled (fallback_idx Direction.OUTPUT) :: ev5) := by
      simp
    have hall := ((h1.append (h2.append h3)).append
      (List.nil_sublist (ev2 ++ ev3
        ++ [REvent.streamAttached r.id io3]))).append h4
    simpa using hall

/-- C5 witness: adding the 6-channel `exRStream` to `exState`, whose
enabled output device `exDev` is open at 2 channels with
`max_supported_channels = 6`. -/
theorem stream_added_reopen_witness :
    exDev.idx ∈ exState.enabledList Direction.OUTPUT ∧
    exState.findDev exDev.idx = some exDev ∧
    (∃ s' ev,
      stream_added_cb exSys exState exRStream = (0, s', ev) ∧
      [REvent.devEnabled (fallback_idx Direction.OUTPUT),
       REvent.devClosed exDev.idx,
       REvent.devOpened exDev.idx exRStream.num_channels,
       REvent.devDisabled (fallback_idx Direction.OUTPUT)].Sublist ev ∧
      exDev.idx ∈ s'.enabledList Direction.OUTPUT ∧
      fallback_idx Direction.OUTPUT ∉ s'.enabledList Direction.OUTPUT ∧
      (∃ d2 rest2, s'.findDev exDev.idx = some d2 ∧ d2.is_open = true ∧
        d2.format_num_channels = some exRStream.num_channels ∧
        d2.attached = (exState.streams.filter
          (can_attach Direction.OUTPUT exDev.idx true)).map
            (fun st => st.id) ++ rest2 ∧
        exRStream.id ∈ d2.attached)) :=
  ⟨by decide, by decide,
   stream_added_reopen_spec exSys exState exRStream exDev exFallback 2
     exRStream [] (by decide) (by decide) (by decide) (by decide)
     (by decide) (by decide) (by decide) (by decide) (by decide)
     (by decide) (by decide) (by decide) (by decide) (by decide)
     (by decide) (by decide) (by decide) (by decide)⟩

end Cras
